import Mathlib

/-! Shallow embedding of the collision/physics core of the tiramysu
repository (`src/engine/physics.ts`, with the player capsule from
`src/entities/player.ts` and trigger spheres from `src/entities/npc.ts`).
The floating-point vector arithmetic of three.js is translated to exact
reals; the third-party geometric collaborators (BVH traversal order,
`closestPointToSegment`, mesh raycasts, world bounding boxes) are data
parameters supplied per tick. -/

open Classical

noncomputable section

/-- `THREE.Vector3` over exact reals. -/
structure V3 where
  x : ℝ
  y : ℝ
  z : ℝ

namespace V3

def add (a b : V3) : V3 := ⟨a.x + b.x, a.y + b.y, a.z + b.z⟩

def sub (a b : V3) : V3 := ⟨a.x - b.x, a.y - b.y, a.z - b.z⟩

def neg (a : V3) : V3 := ⟨-a.x, -a.y, -a.z⟩

def multiplyScalar (a : V3) (s : ℝ) : V3 := ⟨a.x * s, a.y * s, a.z * s⟩

/-- `THREE.Vector3.divideScalar`: multiply by the reciprocal. -/
def divideScalar (a : V3) (s : ℝ) : V3 := a.multiplyScalar (1 / s)

def addScaledVector (a v : V3) (s : ℝ) : V3 := ⟨a.x + v.x * s, a.y + v.y * s, a.z + v.z * s⟩

def dot (a b : V3) : ℝ := a.x * b.x + a.y * b.y + a.z * b.z

def lengthSq (a : V3) : ℝ := a.dot a

def length (a : V3) : ℝ := Real.sqrt a.lengthSq

/-- `THREE.Vector3.normalize` divides by `length() || 1`: a zero vector is
left unchanged. -/
def normalize (a : V3) : V3 := a.divideScalar (if a.length = 0 then 1 else a.length)

def zero : V3 := ⟨0, 0, 0⟩

def distanceToSquared (a b : V3) : ℝ := (a.sub b).lengthSq

end V3

/-- Linear (rotation · scale) block of a three.js `Matrix4`. -/
structure Mat3 where
  m11 : ℝ
  m12 : ℝ
  m13 : ℝ
  m21 : ℝ
  m22 : ℝ
  m23 : ℝ
  m31 : ℝ
  m32 : ℝ
  m33 : ℝ

namespace Mat3

def mulVec (m : Mat3) (v : V3) : V3 :=
  ⟨m.m11 * v.x + m.m12 * v.y + m.m13 * v.z,
   m.m21 * v.x + m.m22 * v.y + m.m23 * v.z,
   m.m31 * v.x + m.m32 * v.y + m.m33 * v.z⟩

def det (m : Mat3) : ℝ :=
  m.m11 * (m.m22 * m.m33 - m.m23 * m.m32)
    - m.m12 * (m.m21 * m.m33 - m.m23 * m.m31)
    + m.m13 * (m.m21 * m.m32 - m.m22 * m.m31)

/-- Adjugate divided by the determinant. -/
def inv (m : Mat3) : Mat3 :=
  let d := m.det
  ⟨(m.m22 * m.m33 - m.m23 * m.m32) / d, (m.m13 * m.m32 - m.m12 * m.m33) / d, (m.m12 * m.m23 - m.m13 * m.m22) / d,
   (m.m23 * m.m31 - m.m21 * m.m33) / d, (m.m11 * m.m33 - m.m13 * m.m31) / d, (m.m13 * m.m21 - m.m11 * m.m23) / d,
   (m.m21 * m.m32 - m.m22 * m.m31) / d, (m.m12 * m.m31 - m.m11 * m.m32) / d, (m.m11 * m.m22 - m.m12 * m.m21) / d⟩

def zero : Mat3 := ⟨0, 0, 0, 0, 0, 0, 0, 0, 0⟩

def idm : Mat3 := ⟨1, 0, 0, 0, 1, 0, 0, 0, 1⟩

/-- `THREE.Matrix4.getMaxScaleOnAxis` on the linear block. -/
def getMaxScaleOnAxis (m : Mat3) : ℝ :=
  Real.sqrt (max (m.m11 ^ 2 + m.m21 ^ 2 + m.m31 ^ 2)
    (max (m.m12 ^ 2 + m.m22 ^ 2 + m.m32 ^ 2) (m.m13 ^ 2 + m.m23 ^ 2 + m.m33 ^ 2)))

end Mat3

/-- An affine world/local transform: the relevant content of a three.js
`Matrix4` (the objects of this game carry no perspective row). -/
structure Affine where
  lin : Mat3
  tr : V3

namespace Affine

def apply (A : Affine) (v : V3) : V3 := (A.lin.mulVec v).add A.tr

def idA : Affine := ⟨Mat3.idm, V3.zero⟩

/-- `THREE.Matrix4.invert`, which yields the zero matrix when singular. -/
def invert (A : Affine) : Affine :=
  if A.lin.det = 0 then ⟨Mat3.zero, V3.zero⟩
  else ⟨A.lin.inv, (A.lin.inv.mulVec A.tr).neg⟩

end Affine

/-- `THREE.Line3` (field `end` is a Lean keyword, rendered `endp`). -/
structure Line3 where
  start : V3
  endp : V3

def Line3.applyAffine (L : Line3) (A : Affine) : Line3 := ⟨A.apply L.start, A.apply L.endp⟩

/-- `THREE.Box3`. -/
structure Box3 where
  min : V3
  max : V3

namespace Box3

def clampPoint (b : Box3) (v : V3) : V3 :=
  ⟨Min.min (Max.max v.x b.min.x) b.max.x, Min.min (Max.max v.y b.min.y) b.max.y,
   Min.min (Max.max v.z b.min.z) b.max.z⟩

end Box3

/-- `THREE.Sphere`. -/
structure Sphere where
  center : V3
  radius : ℝ

/-- `THREE.Box3.intersectsSphere`: clamp the center into the box and compare
the squared distance with the squared radius. -/
def Box3.intersectsSphere (b : Box3) (s : Sphere) : Prop :=
  (b.clampPoint s.center).distanceToSquared s.center ≤ s.radius * s.radius

/-- `THREE.Sphere.applyMatrix4`: transform the center, scale the radius by
the matrix's maximum axis scale. -/
def Sphere.applyAffine (s : Sphere) (A : Affine) : Sphere :=
  ⟨A.apply s.center, s.radius * A.lin.getMaxScaleOnAxis⟩

/-- A triangle of the environment mesh, in the mesh's local space. -/
structure Triangle where
  a : V3
  b : V3
  c : V3

/-- The points of a segment, as a set (for the geometric statements). -/
def segPts (L : Line3) : Set V3 :=
  {q | ∃ t : ℝ, 0 ≤ t ∧ t ≤ 1 ∧ q = L.start.add ((L.endp.sub L.start).multiplyScalar t)}

/-- The points of a triangle: barycentric combinations of the vertices. -/
def triPts (T : Triangle) : Set V3 :=
  {q | ∃ α β γ : ℝ, 0 ≤ α ∧ 0 ≤ β ∧ 0 ≤ γ ∧ α + β + γ = 1 ∧
    q = ((T.a.multiplyScalar α).add (T.b.multiplyScalar β)).add (T.c.multiplyScalar γ)}

/-- What `tri.closestPointToSegment(line, triPoint, playerPoint)` of
three-mesh-bvh reports: the two target points and the returned distance. -/
structure ClosestRes where
  triPoint : V3
  playerPoint : V3
  distance : ℝ

/-- The body of the `intersectsTriangle` callback of
`Physics.checkCollisions` (physics.ts lines 95-108) for one visited
triangle, acting on the accumulated working segment. -/
def solveTriangle (radius : ℝ) (res : ClosestRes) (line : Line3) : Line3 :=
  if res.distance < radius then
    let depth := radius - res.distance
    let direction := (res.playerPoint.sub res.triPoint).normalize
    ⟨line.start.addScaledVector direction depth, line.endp.addScaledVector direction depth⟩
  else line

/-- The shapecast of `Physics.checkCollisions`: fold the triangle callback
over the triangles the BVH visits, in visit order. -/
def shapecast (closest : Triangle → Line3 → ClosestRes) (radius : ℝ)
    (tris : List Triangle) (line : Line3) : Line3 :=
  tris.foldl (fun l t => solveTriangle radius (closest t l) l) line

/-- `EntityType` of `src/entities/entity.ts` (constructors lowercased). -/
inductive EntityType where
  | npc
  | player
  | prop
  | environment
  | interactable

/-- `e.entityType === EntityType.Interactable || e.entityType === EntityType.NPC`. -/
def EntityType.isTrigger : EntityType → Bool
  | .interactable => true
  | .npc => true
  | _ => false

/-- An interactable/NPC entity as the trigger scan reads it: identity,
type tag, optional proximity sphere and world matrix. -/
structure TriggerEntity where
  id : ℕ
  entityType : EntityType
  sphere : Option Sphere
  matrixWorld : Affine

/-- Payload of the `interactableCollision` event (entity identity plus the
enter/exit flag). -/
structure PhysicsEvent where
  entityId : ℕ
  isColliding : Bool

/-- One registry entry of the trigger loop of `Physics.checkCollisions`
(physics.ts lines 114-140): edge-triggered enter/exit detection against
the set of currently colliding entities. -/
def scanStep (aabb : Box3) (st : List ℕ × List PhysicsEvent) (e : TriggerEntity) :
    List ℕ × List PhysicsEvent :=
  if e.entityType.isTrigger then
    match e.sphere with
    | some sp =>
        let tempSphere := sp.applyAffine e.matrixWorld
        let isColliding := aabb.intersectsSphere tempSphere
        let wasColliding := e.id ∈ st.1
        if isColliding ∧ ¬wasColliding then
          (e.id :: st.1, st.2 ++ [⟨e.id, true⟩])
        else if ¬isColliding ∧ wasColliding then
          (st.1.erase e.id, st.2 ++ [⟨e.id, false⟩])
        else st
    | none => st
  else st

/-- The whole trigger loop over the registry, in registry order. -/
def scanTriggers (registry : List TriggerEntity) (aabb : Box3) (collidingEntities : List ℕ) :
    List ℕ × List PhysicsEvent :=
  registry.foldl (scanStep aabb) (collidingEntities, [])

/-- The trigger loop run over a sequence of ticks (each tick contributes the
registry it saw and the player bounds it used), events concatenated. -/
def runTicks (ticks : List (List TriggerEntity × Box3)) (set0 : List ℕ) :
    List ℕ × List PhysicsEvent :=
  ticks.foldl (fun acc t =>
    let r := scanTriggers t.1 t.2 acc.1
    (r.1, acc.2 ++ r.2)) (set0, [])

/-- The enter/exit flags a given entity received, in order. -/
def flagsFor (e : ℕ) (evs : List PhysicsEvent) : List Bool :=
  (evs.filter fun ev => ev.entityId == e).map (·.isColliding)

/-- Strict alternation of an enter/exit flag list away from a current
overlap state `m`: every event flips the state (an enter fires exactly
from NotOverlapping, an exit exactly from Overlapping). -/
def altFrom : Prop → List Bool → Prop
  | _, [] => True
  | m, b :: l => ((b = true) ↔ ¬m) ∧ altFrom (b = true) l

/-- The overlap state after a flag list: the last flag if any, else the
initial state. -/
def endsOverlapping (m : Prop) (l : List Bool) : Prop :=
  match l.getLast? with
  | some b => b = true
  | none => m

/-- `Capsule` of `src/entities/player.ts`: radius 0.25, vertical segment. -/
structure Capsule where
  radius : ℝ
  lineSegment : Line3

def Capsule.default : Capsule := ⟨0.25, ⟨V3.zero, ⟨0, -0.5, 0⟩⟩⟩

/-- The actor as the physics module reads and writes it. `rotL` is the
constant linear block of its world transform; `updateMatrixWorld`
recomposes `matrixWorld` from it and the current position. -/
structure PlayerState where
  position : V3
  velocity : Option V3
  weight : ℝ
  capsule : Capsule
  rotL : Mat3
  matrixWorld : Affine

/-- The environment collider mesh: world matrix plus the readiness of its
BVH (`geometry.boundsTree`). -/
structure EnvState where
  matrixWorld : Affine
  boundsTree : Bool

/-- External collaborators polled during one tick: the entity registry, the
three-mesh-bvh closest-point routine, the BVH's triangle visit order for
given bounds, `Raycaster.intersectObjects` on the environment children
(hit count for an origin/direction pair), and `Box3.setFromObject` on the
player as a function of its position. -/
structure EngineParams where
  registry : List TriggerEntity
  closest : Triangle → Line3 → ClosestRes
  bvhVisit : Box3 → List Triangle
  raycastHits : V3 → V3 → ℕ
  playerAABB : V3 → Box3

/-- A thrown JavaScript error crossing the `update` boundary. -/
inductive JsError where
  | typeError

/-- The `Physics` instance state. -/
structure Physics where
  player : Option PlayerState
  environment : Option EnvState
  isOnGround : Bool
  collidingEntities : List ℕ

namespace Physics

/-- The constructor: player and environment are `null!` until `init`. -/
def new : Physics := ⟨none, none, false, []⟩

/-- `Physics.init`: bind the actor and the environment collider (which may
be missing, hence the option). -/
def init (self : Physics) (player : PlayerState) (environment : Option EnvState) : Physics :=
  { self with player := some player, environment := environment }

/-- `Physics.gravity` (physics.ts lines 76-81). -/
def gravity (delta : ℝ) (p : PlayerState) : PlayerState :=
  let v := p.velocity.getD V3.zero
  { p with velocity := some ⟨v.x, v.y - 9.8 * delta * p.weight, v.z⟩ }

/-- `Physics.checkCollisions` (physics.ts lines 83-142): build the
local-space working segment, accumulate the solver corrections over the
visited triangles, then run the trigger scan against the player bounds. -/
def checkCollisions (params : EngineParams) (env : EnvState) (collidingEntities : List ℕ)
    (p : PlayerState) : Line3 × (List ℕ × List PhysicsEvent) :=
  let tempMat := env.matrixWorld.invert
  let line0 := (p.capsule.lineSegment.applyAffine p.matrixWorld).applyAffine tempMat
  let tempAABB := params.playerAABB p.position
  let line1 := shapecast params.closest p.capsule.radius (params.bvhVisit tempAABB) line0
  (line1, scanTriggers params.registry tempAABB collidingEntities)

/-- `Physics.resolveCollisions` (physics.ts lines 144-178): compute the
world-space correction, probe the ground, then apply the (skinned)
correction and reshape the velocity. The `delta` parameter is unused, as
in the source. -/
def resolveCollisions (_delta : ℝ) (params : EngineParams) (env : EnvState)
    (tempLine : Line3) (p : PlayerState) : PlayerState × Bool :=
  let newPosition := env.matrixWorld.apply tempLine.start
  let deltaVector := newPosition.sub p.position
  let hadCollision := deltaVector.length > 0.005
  let ground := if 0 < params.raycastHits p.position (p.position.add ⟨0, -3, 0⟩) then true else false
  if hadCollision then
    let offset := max 0 (deltaVector.length - 1e-5)
    let dv := deltaVector.normalize.multiplyScalar offset
    let p1 := { p with position := p.position.add dv }
    match p1.velocity with
    | some v =>
        if ground = false then
          let dir := dv.normalize
          ({ p1 with velocity := some (v.addScaledVector dir (-(dir.dot v))) }, ground)
        else
          ({ p1 with velocity := some ⟨v.x, 0, v.z⟩ }, ground)
    | none => (p1, ground)
  else (p, ground)

/-- `Physics.update` (physics.ts lines 59-74): the per-tick orchestration.
Dereferencing the unbound environment (`this.environment.geometry`)
before `init` throws; a missing BVH skips the tick. -/
def update (delta : ℝ) (params : EngineParams) (self : Physics) :
    Except JsError (Physics × List PhysicsEvent) :=
  match self.environment with
  | none => .error .typeError
  | some env =>
    if env.boundsTree = false then .ok (self, [])
    else
      match self.player with
      | none => .error .typeError
      | some p =>
        let p1 := gravity delta p
        let cc := checkCollisions params env self.collidingEntities p1
        let rc := resolveCollisions delta params env cc.1 p1
        let p2 := rc.1
        let p3 := match p2.velocity with
          | some v => { p2 with position := p2.position.addScaledVector v delta }
          | none => p2
        let p4 := { p3 with matrixWorld := (⟨p3.rotL, p3.position⟩ : Affine) }
        .ok (⟨some p4, self.environment, rc.2, cc.2.1⟩, cc.2.2)

end Physics

/-- The tail of `Physics.update` (physics.ts lines 70-73): integrate the
velocity into the position, then refresh the world matrix
(`updateMatrixWorld`). -/
def Physics.integrate (delta : ℝ) (p : PlayerState) : PlayerState :=
  let p3 := match p.velocity with
    | some v => { p with position := p.position.addScaledVector v delta }
    | none => p
  { p3 with matrixWorld := (⟨p3.rotL, p3.position⟩ : Affine) }

/-! Concrete scenario data, used to instantiate the theorems below. -/

/-- The ready environment at the world origin. -/
def envReady : EnvState := ⟨Affine.idA, true⟩

/-- The environment before its BVH is built. -/
def envNotReady : EnvState := ⟨Affine.idA, false⟩

/-- A large horizontal floor triangle in the plane `y = 0`. -/
def floorTri : Triangle := ⟨⟨-50, 0, -50⟩, ⟨50, 0, -50⟩, ⟨0, 0, 50⟩⟩

/-- What `closestPointToSegment` computes for a vertical working segment
hanging above a large horizontal triangle: the closest segment point is the
bottom endpoint, the closest triangle point its vertical projection. -/
def closestFlat : Triangle → Line3 → ClosestRes :=
  fun _ line => ⟨⟨line.endp.x, 0, line.endp.z⟩, line.endp, line.endp.y⟩

/-- A player bound to the default capsule, spawn-free transform. -/
def basePlayer (pos : V3) (vel : Option V3) : PlayerState :=
  ⟨pos, vel, 2, Capsule.default, Mat3.idm, ⟨Mat3.idm, pos⟩⟩

/-- Collaborators with nothing nearby: empty registry, no triangles, no
raycast hits. -/
def noParams : EngineParams :=
  ⟨[], closestFlat, fun _ => [], fun _ _ => 0, fun p => ⟨p.sub ⟨0.5, 0.5, 0.5⟩, p.add ⟨0.5, 0.5, 0.5⟩⟩⟩

/-- Collaborators whose downward raycast reports a hit exactly when the ray
origin is at height at most 1. -/
def lowParams : EngineParams :=
  ⟨[], closestFlat, fun _ => [], fun o _ => if o.y ≤ 1 then 1 else 0,
   fun p => ⟨p.sub ⟨0.5, 0.5, 0.5⟩, p.add ⟨0.5, 0.5, 0.5⟩⟩⟩

/-- Collaborators over the floor triangle, no raycast hits, no triggers. -/
def fallParams : EngineParams :=
  ⟨[], closestFlat, fun _ => [floorTri], fun _ _ => 0,
   fun p => ⟨p.sub ⟨0.5, 0.5, 0.5⟩, p.add ⟨0.5, 0.5, 0.5⟩⟩⟩

/-- A small trigger sphere hovering just above the reach of the player
bounds at height 0.6, inside their reach after an upward correction. -/
def bubbleEntity : TriggerEntity := ⟨7, .npc, some ⟨⟨0, 1.2, 0⟩, 0.01⟩, Affine.idA⟩

/-- Collaborators over the floor triangle together with `bubbleEntity`. -/
def trigParams : EngineParams :=
  ⟨[bubbleEntity], closestFlat, fun _ => [floorTri], fun _ _ => 0,
   fun p => ⟨p.sub ⟨0.5, 0.5, 0.5⟩, p.add ⟨0.5, 0.5, 0.5⟩⟩⟩

/-- A unit trigger sphere at the origin. -/
def originEntity : TriggerEntity := ⟨1, .interactable, some ⟨V3.zero, 1⟩, Affine.idA⟩

/-- A box touching the origin. -/
def nearBox : Box3 := ⟨⟨-1, -1, -1⟩, ⟨1, 1, 1⟩⟩

/-- A box far from the origin. -/
def farBox : Box3 := ⟨⟨10, 10, 10⟩, ⟨11, 11, 11⟩⟩

/-- The triangle used to instantiate the solver-pass geometry: a wide
horizontal triangle containing the origin. -/
def triWide : Triangle := ⟨⟨-4, 0, -4⟩, ⟨4, 0, -4⟩, ⟨0, 0, 8⟩⟩

/-- A vertical segment half a unit above `triWide`. -/
def segAbove : Line3 := ⟨⟨0, 1, 0⟩, ⟨0, 0.5, 0⟩⟩

/-- The closest pair between `segAbove` and `triWide`. -/
def resAbove : ClosestRes := ⟨V3.zero, ⟨0, 0.5, 0⟩, 0.5⟩

/-- A segment touching `triWide` at the shared origin point. -/
def segTouch : Line3 := ⟨V3.zero, ⟨0, 0, 1⟩⟩

/-- The degenerate closest pair between `segTouch` and `triWide`: both
closest points coincide, the distance is zero. -/
def resTouch : ClosestRes := ⟨V3.zero, V3.zero, 0⟩

/-- A ready state (reached by `init` from the constructor) with the actor
at height 1.825 and zero velocity above the floor triangle. -/
def C8state0 : Physics :=
  ⟨some (basePlayer ⟨0, 1.825, 0⟩ (some V3.zero)), some envReady, false, []⟩

/-- The state one `update 0.25` tick after `C8state0`: gravity pulled the
velocity to −4.9 and the integration moved the actor to height 0.6, whose
capsule bottom (0.1) now penetrates the floor within the 0.25 radius. -/
def C8state1 : Physics :=
  ⟨some ⟨⟨0, 0.6, 0⟩, some ⟨0, -4.9, 0⟩, 2, Capsule.default, Mat3.idm,
    ⟨Mat3.idm, ⟨0, 0.6, 0⟩⟩⟩, some envReady, false, []⟩

/-- The state after a further `update 0` tick from `C8state1`: the solver
pushed the capsule up by 0.15 and the correction (skinned by 1e-5) moved
the actor — `update 0` changed the position. -/
def C8state2 : Physics :=
  ⟨some ⟨⟨0, 0.74999, 0⟩, some V3.zero, 2, Capsule.default, Mat3.idm,
    ⟨Mat3.idm, ⟨0, 0.74999, 0⟩⟩⟩, some envReady, false, []⟩

/-- A ready state with the actor at height 0.6 (capsule bottom penetrating
the floor) and the `bubbleEntity` trigger registered. -/
def C3state0 : Physics :=
  ⟨some (basePlayer ⟨0, 0.6, 0⟩ (some V3.zero)), some envReady, false, []⟩

/-- The state one `update 0` tick after `C3state0`: corrected up to
0.74999, with no trigger event emitted. -/
def C3state1 : Physics :=
  ⟨some ⟨⟨0, 0.74999, 0⟩, some V3.zero, 2, Capsule.default, Mat3.idm,
    ⟨Mat3.idm, ⟨0, 0.74999, 0⟩⟩⟩, some envReady, false, []⟩

end

/-! ### Vector algebra lemmas -/

theorem V3.dot_self_nonneg (v : V3) : 0 ≤ v.dot v := by
  simp only [V3.dot]
  nlinarith [sq_nonneg v.x, sq_nonneg v.y, sq_nonneg v.z]

theorem V3.eq_zero_of_dot_self {v : V3} (h : v.dot v = 0) : v = ⟨0, 0, 0⟩ := by
  cases v with
  | mk x y z =>
    simp only [V3.dot] at h
    have hx : x = 0 := by nlinarith [sq_nonneg x, sq_nonneg y, sq_nonneg z]
    have hy : y = 0 := by nlinarith [sq_nonneg x, sq_nonneg y, sq_nonneg z]
    have hz : z = 0 := by nlinarith [sq_nonneg x, sq_nonneg y, sq_nonneg z]
    simp [hx, hy, hz]

theorem V3.length_nonneg (v : V3) : 0 ≤ v.length := Real.sqrt_nonneg _

theorem V3.sq_length (v : V3) : v.length ^ 2 = v.dot v := by
  simp only [V3.length, V3.lengthSq]
  exact Real.sq_sqrt (V3.dot_self_nonneg v)

theorem V3.length_eq_zero_iff {v : V3} : v.length = 0 ↔ v = ⟨0, 0, 0⟩ := by
  constructor
  · intro h
    apply V3.eq_zero_of_dot_self
    have h2 := V3.sq_length v
    rw [h] at h2
    simpa using h2.symm
  · rintro rfl
    simp [V3.length, V3.lengthSq, V3.dot]

/-- Evaluate a square root from an exact square. -/
theorem sqrtNum {a b : ℝ} (hb : 0 ≤ b) (h : b ^ 2 = a) : Real.sqrt a = b := by
  rw [← h, Real.sqrt_sq hb]

theorem V3.cauchy (a b : V3) : a.dot b ≤ a.length * b.length := by
  have h1 : (a.dot b) ^ 2 ≤ (a.dot a) * (b.dot b) := by
    simp only [V3.dot]
    nlinarith [sq_nonneg (a.x * b.y - a.y * b.x), sq_nonneg (a.x * b.z - a.z * b.x),
      sq_nonneg (a.y * b.z - a.z * b.y)]
  have h2 : a.dot b ≤ |a.dot b| := le_abs_self _
  have h3 : |a.dot b| = Real.sqrt ((a.dot b) ^ 2) := (Real.sqrt_sq_eq_abs _).symm
  have h4 : Real.sqrt ((a.dot b) ^ 2) ≤ Real.sqrt ((a.dot a) * (b.dot b)) :=
    Real.sqrt_le_sqrt h1
  have h5 : Real.sqrt ((a.dot a) * (b.dot b)) = a.length * b.length := by
    simp only [V3.length, V3.lengthSq]
    exact Real.sqrt_mul (V3.dot_self_nonneg a) _
  linarith

theorem V3.length_mulScalar (v : V3) (c : ℝ) :
    (v.multiplyScalar c).length = |c| * v.length := by
  simp only [V3.length, V3.lengthSq, V3.dot, V3.multiplyScalar]
  rw [show v.x * c * (v.x * c) + v.y * c * (v.y * c) + v.z * c * (v.z * c)
      = c ^ 2 * (v.x * v.x + v.y * v.y + v.z * v.z) by ring]
  rw [Real.sqrt_mul (sq_nonneg c), Real.sqrt_sq_eq_abs]

theorem V3.normalize_of_ne {v : V3} (h : v.length ≠ 0) :
    v.normalize = v.multiplyScalar (1 / v.length) := by
  simp only [V3.normalize, V3.divideScalar]
  rw [if_neg h]

theorem V3.length_normalize {v : V3} (h : v.length ≠ 0) : v.normalize.length = 1 := by
  rw [V3.normalize_of_ne h, V3.length_mulScalar]
  have hp : 0 < v.length := lt_of_le_of_ne (V3.length_nonneg v) (Ne.symm h)
  rw [abs_of_pos (by positivity)]
  field_simp

theorem V3.length_y (c : ℝ) : (⟨0, c, 0⟩ : V3).length = |c| := by
  simp only [V3.length, V3.lengthSq, V3.dot]
  rw [show (0 * 0 + c * c + 0 * 0 : ℝ) = c ^ 2 by ring, Real.sqrt_sq_eq_abs]

theorem V3.normalize_y {c : ℝ} (h : 0 < c) : (⟨0, c, 0⟩ : V3).normalize = ⟨0, 1, 0⟩ := by
  have hl : (⟨0, c, 0⟩ : V3).length = c := by rw [V3.length_y]; exact abs_of_pos h
  rw [V3.normalize_of_ne (by rw [hl]; exact ne_of_gt h)]
  simp only [V3.multiplyScalar, hl]
  have hc : c * (1 / c) = 1 := by field_simp
  simp only [zero_mul]
  rw [hc]

theorem Mat3.idm_mulVec (v : V3) : Mat3.idm.mulVec v = v := by
  cases v
  simp [Mat3.mulVec, Mat3.idm]

theorem Affine.idA_apply (v : V3) : Affine.idA.apply v = v := by
  cases v
  simp [Affine.apply, Affine.idA, Mat3.idm, Mat3.mulVec, V3.add, V3.zero]

theorem Affine.idA_invert : Affine.idA.invert = Affine.idA := by
  rw [Affine.invert, if_neg (by norm_num [Affine.idA, Mat3.det, Mat3.idm])]
  simp [Affine.idA, Mat3.inv, Mat3.det, Mat3.idm, Mat3.mulVec, V3.neg, V3.zero]

theorem V3.mulScalar_mulScalar (v : V3) (s t : ℝ) :
    (v.multiplyScalar s).multiplyScalar t = v.multiplyScalar (s * t) := by
  cases v
  simp only [V3.multiplyScalar, V3.mk.injEq]
  refine ⟨by ring, by ring, by ring⟩

theorem V3.mulScalar_one (v : V3) : v.multiplyScalar 1 = v := by
  cases v
  simp [V3.multiplyScalar]

theorem V3.dot_comm (a b : V3) : a.dot b = b.dot a := by
  simp only [V3.dot]
  ring

theorem V3.dot_mulScalar_left (v w : V3) (c : ℝ) :
    (v.multiplyScalar c).dot w = c * (v.dot w) := by
  simp only [V3.dot, V3.multiplyScalar]
  ring

theorem V3.dot_mulScalar_right (v w : V3) (c : ℝ) :
    v.dot (w.multiplyScalar c) = c * (v.dot w) := by
  simp only [V3.dot, V3.multiplyScalar]
  ring

theorem V3.dot_addScaled_left (a u w : V3) (s : ℝ) :
    (a.addScaledVector u s).dot w = a.dot w + s * (u.dot w) := by
  simp only [V3.dot, V3.addScaledVector]
  ring

theorem V3.dot_addScaled_right (w a u : V3) (s : ℝ) :
    w.dot (a.addScaledVector u s) = w.dot a + s * (w.dot u) := by
  simp only [V3.dot, V3.addScaledVector]
  ring

theorem V3.dot_normalize_self {v : V3} (h : v.length ≠ 0) :
    v.normalize.dot v.normalize = 1 := by
  have h2 := V3.sq_length v.normalize
  rw [V3.length_normalize h] at h2
  simpa using h2.symm

theorem V3.normalize_mulScalar_normalize {v : V3} {c : ℝ} (hv : v.length ≠ 0) (hc : 0 < c) :
    (v.normalize.multiplyScalar c).normalize = v.normalize := by
  have hl : (v.normalize.multiplyScalar c).length = c := by
    rw [V3.length_mulScalar, V3.length_normalize hv, abs_of_pos hc, mul_one]
  rw [V3.normalize_of_ne (by rw [hl]; exact ne_of_gt hc), hl, V3.mulScalar_mulScalar]
  rw [show c * (1 / c) = 1 by field_simp, V3.mulScalar_one]

theorem V3.length_x (c : ℝ) : (⟨c, 0, 0⟩ : V3).length = |c| := by
  simp only [V3.length, V3.lengthSq, V3.dot]
  rw [show (c * c + 0 * 0 + 0 * 0 : ℝ) = c ^ 2 by ring, Real.sqrt_sq_eq_abs]

theorem V3.normalize_x {c : ℝ} (h : 0 < c) : (⟨c, 0, 0⟩ : V3).normalize = ⟨1, 0, 0⟩ := by
  have hl : (⟨c, 0, 0⟩ : V3).length = c := by rw [V3.length_x]; exact abs_of_pos h
  rw [V3.normalize_of_ne (by rw [hl]; exact ne_of_gt h)]
  simp only [V3.multiplyScalar, hl]
  have hc : c * (1 / c) = 1 := by field_simp
  simp only [zero_mul]
  rw [hc]

/-! ### Claim C4: skipped tick when the BVH is not ready -/

/-- Claim C4: for every delta, when the bound environment's BVH is not yet
built, `Physics.update` returns the state exactly as it was — actor
position and velocity included — and emits no events. -/
theorem C4_bvh_not_ready (delta : ℝ) (params : EngineParams) (st : Physics)
    (env : EnvState) (he : st.environment = some env) (hb : env.boundsTree = false) :
    Physics.update delta params st = .ok (st, []) := by
  simp [Physics.update, he, hb]

/-- Witness for C4 at a concrete pre-BVH state. -/
theorem C4_bvh_not_ready_witness :
    (Physics.new.init (basePlayer ⟨0, 5, 0⟩ none) (some envNotReady)).environment
        = some envNotReady ∧
    envNotReady.boundsTree = false ∧
    Physics.update 1 noParams (Physics.new.init (basePlayer ⟨0, 5, 0⟩ none) (some envNotReady))
      = .ok (Physics.new.init (basePlayer ⟨0, 5, 0⟩ none) (some envNotReady), []) :=
  ⟨rfl, rfl, C4_bvh_not_ready 1 noParams _ envNotReady rfl rfl⟩

/-! ### Claim C5: update before init -/

/-- Counterexample to claim C5 as stated: calling `update` on the state
the constructor leaves behind does not degrade to a skipped tick — the
dereference of the unbound environment throws, so the call is not handled
identically to the BVH-not-ready case (which returns normally). -/
theorem C5_counterexample :
    Physics.update 0.016 noParams Physics.new = .error .typeError ∧
    Physics.update 0.016 noParams Physics.new ≠ .ok (Physics.new, []) := by
  constructor
  · simp [Physics.update, Physics.new]
  · simp [Physics.update, Physics.new]

/-- Claim C5 amended: `update` before `init` (environment still unbound)
throws a TypeError out of the public boundary before mutating any state;
it is not treated like the BVH-not-ready skip. -/
theorem C5_update_before_init (delta : ℝ) (params : EngineParams) (st : Physics)
    (h : st.environment = none) :
    Physics.update delta params st = .error .typeError := by
  simp [Physics.update, h]

/-- Witness for C5 amended at the constructor state. -/
theorem C5_update_before_init_witness :
    Physics.new.environment = none ∧
    Physics.update 2 noParams Physics.new = .error .typeError :=
  ⟨rfl, C5_update_before_init 2 noParams Physics.new rfl⟩

/-! ### Claims C9 and C10: the positional correction branch -/

/-- Counterexample to claim C9 as stated: with a correction delta of
magnitude 1 (above the 0.005 epsilon), the actor is translated by the
delta shortened by the 1e-5 skin, not by exactly the delta vector. -/
theorem C9_counterexample :
    ((envReady.matrixWorld.apply (⟨1, 0, 0⟩ : V3)).sub
        (basePlayer V3.zero (some V3.zero)).position) = (⟨1, 0, 0⟩ : V3) ∧
    ((⟨1, 0, 0⟩ : V3)).length > 0.005 ∧
    (Physics.resolveCollisions 0 noParams envReady ⟨⟨1, 0, 0⟩, ⟨1, -0.5, 0⟩⟩
        (basePlayer V3.zero (some V3.zero))).1.position
      ≠ (basePlayer V3.zero (some V3.zero)).position.add (⟨1, 0, 0⟩ : V3) := by
  have hsub : ((envReady.matrixWorld.apply (⟨1, 0, 0⟩ : V3)).sub
      (basePlayer V3.zero (some V3.zero)).position) = (⟨1, 0, 0⟩ : V3) := by
    rw [show envReady.matrixWorld = Affine.idA from rfl, Affine.idA_apply]
    simp [basePlayer, V3.sub, V3.zero]
  have hlen : ((⟨1, 0, 0⟩ : V3)).length = 1 := by rw [V3.length_x]; norm_num
  refine ⟨hsub, by rw [hlen]; norm_num, ?_⟩
  simp only [Physics.resolveCollisions, hsub]
  rw [if_pos (by rw [hlen]; norm_num)]
  rw [hlen]
  rw [show max 0 ((1 : ℝ) - 1e-5) = 1 - 1e-5 by norm_num]
  rw [V3.normalize_x (by norm_num : (0 : ℝ) < 1)]
  simp only [basePlayer, V3.zero, V3.multiplyScalar, V3.add, noParams]
  norm_num [V3.mk.injEq]

/-- Claim C9 amended: when the delta between the corrected world-space
segment start and the current actor position has magnitude above 0.005,
the position is translated directly (no force or impulse) by that delta's
direction scaled to magnitude (‖delta‖ − 1e-5). -/
theorem C9_positional_correction (delta : ℝ) (params : EngineParams) (env : EnvState)
    (line : Line3) (p : PlayerState)
    (h : ((env.matrixWorld.apply line.start).sub p.position).length > 0.005) :
    (Physics.resolveCollisions delta params env line p).1.position
      = p.position.add
          ((((env.matrixWorld.apply line.start).sub p.position).normalize).multiplyScalar
            (((env.matrixWorld.apply line.start).sub p.position).length - 1e-5)) := by
  simp only [Physics.resolveCollisions]
  rw [if_pos h]
  rw [show max 0 (((env.matrixWorld.apply line.start).sub p.position).length - 1e-5)
      = ((env.matrixWorld.apply line.start).sub p.position).length - 1e-5 by
    apply max_eq_right; norm_num at h ⊢; linarith]
  rcases hv : p.velocity with _ | v
  · simp only [hv]
  · simp only [hv]
    split
    · rfl
    · rfl

/-- Witness for C9 amended: a concrete correction of magnitude 2. -/
theorem C9_positional_correction_witness :
    ((envReady.matrixWorld.apply (⟨0, 2, 0⟩ : V3)).sub
        (basePlayer V3.zero (some V3.zero)).position).length > 0.005 ∧
    (Physics.resolveCollisions 1 noParams envReady ⟨⟨0, 2, 0⟩, ⟨0, 1.5, 0⟩⟩
        (basePlayer V3.zero (some V3.zero))).1.position
      = (basePlayer V3.zero (some V3.zero)).position.add
          ((((envReady.matrixWorld.apply ((⟨0, 2, 0⟩ : V3))).sub
              (basePlayer V3.zero (some V3.zero)).position).normalize).multiplyScalar
            (((envReady.matrixWorld.apply ((⟨0, 2, 0⟩ : V3))).sub
              (basePlayer V3.zero (some V3.zero)).position).length - 1e-5)) := by
  have hsub : ((envReady.matrixWorld.apply (⟨0, 2, 0⟩ : V3)).sub
      (basePlayer V3.zero (some V3.zero)).position) = (⟨0, 2, 0⟩ : V3) := by
    rw [show envReady.matrixWorld = Affine.idA from rfl, Affine.idA_apply]
    simp [basePlayer, V3.sub, V3.zero]
  have h : ((envReady.matrixWorld.apply (⟨0, 2, 0⟩ : V3)).sub
      (basePlayer V3.zero (some V3.zero)).position).length > 0.005 := by
    rw [hsub, V3.length_y]
    norm_num
  exact ⟨h, C9_positional_correction 1 noParams envReady ⟨⟨0, 2, 0⟩, ⟨0, 1.5, 0⟩⟩
    (basePlayer V3.zero (some V3.zero)) h⟩

/-- Claim C10: on a tick whose correction delta has magnitude at most the
0.005 epsilon, the resolve step returns the player record — position and
velocity — exactly unchanged (only the ground flag is recomputed); in
particular grounded vertical-velocity zeroing happens only on colliding
ticks. -/
theorem C10_resolve_no_collision (delta : ℝ) (params : EngineParams) (env : EnvState)
    (line : Line3) (p : PlayerState)
    (h : ((env.matrixWorld.apply line.start).sub p.position).length ≤ 0.005) :
    (Physics.resolveCollisions delta params env line p).1 = p := by
  simp only [Physics.resolveCollisions]
  rw [if_neg (not_lt.mpr h)]

/-- Witness for C10: a zero correction delta leaves the player record
untouched. -/
theorem C10_resolve_no_collision_witness :
    ((envReady.matrixWorld.apply (⟨0, 5, 0⟩ : V3)).sub
        (basePlayer ⟨0, 5, 0⟩ (some V3.zero)).position).length ≤ 0.005 ∧
    (Physics.resolveCollisions 1 noParams envReady ⟨⟨0, 5, 0⟩, ⟨0, 4.5, 0⟩⟩
        (basePlayer ⟨0, 5, 0⟩ (some V3.zero))).1 = basePlayer ⟨0, 5, 0⟩ (some V3.zero) := by
  have h : ((envReady.matrixWorld.apply (⟨0, 5, 0⟩ : V3)).sub
      (basePlayer ⟨0, 5, 0⟩ (some V3.zero)).position).length ≤ 0.005 := by
    rw [show envReady.matrixWorld = Affine.idA from rfl, Affine.idA_apply]
    have : ((⟨0, 5, 0⟩ : V3).sub ⟨0, 5, 0⟩) = (⟨0, 0, 0⟩ : V3) := by
      simp [V3.sub]
    rw [show (basePlayer ⟨0, 5, 0⟩ (some V3.zero)).position = (⟨0, 5, 0⟩ : V3) from rfl, this]
    rw [show ((⟨0, 0, 0⟩ : V3)) = (⟨0, (0 : ℝ), 0⟩ : V3) from rfl, V3.length_y]
    norm_num
  exact ⟨h, C10_resolve_no_collision 1 noParams envReady ⟨⟨0, 5, 0⟩, ⟨0, 4.5, 0⟩⟩
    (basePlayer ⟨0, 5, 0⟩ (some V3.zero)) h⟩

/-! ### Claim C6: velocity response on a colliding tick -/

/-- Claim C6: on a colliding tick (correction magnitude above the 0.005
epsilon), if the downward probe reports no hit (airborne) the velocity
component along the correction's normalized direction is cancelled while
every component orthogonal to the correction is preserved; if the probe
reports a hit (grounded) the vertical velocity component is set to zero
and the horizontal components are untouched. -/
theorem C6_velocity_response (delta : ℝ) (params : EngineParams) (env : EnvState)
    (line : Line3) (p : PlayerState) (v : V3)
    (hv : p.velocity = some v)
    (hcol : ((env.matrixWorld.apply line.start).sub p.position).length > 0.005) :
    (params.raycastHits p.position (p.position.add ⟨0, -3, 0⟩) = 0 →
      ∃ v', (Physics.resolveCollisions delta params env line p).1.velocity = some v' ∧
        v'.dot (((env.matrixWorld.apply line.start).sub p.position).normalize) = 0 ∧
        ∀ w : V3, w.dot ((env.matrixWorld.apply line.start).sub p.position) = 0 →
          w.dot v' = w.dot v) ∧
    (0 < params.raycastHits p.position (p.position.add ⟨0, -3, 0⟩) →
      ∃ v', (Physics.resolveCollisions delta params env line p).1.velocity = some v' ∧
        v'.y = 0 ∧ v'.x = v.x ∧ v'.z = v.z) := by
  set dv := ((env.matrixWorld.apply line.start).sub p.position) with hdv
  have hlen : dv.length ≠ 0 := by
    intro h0
    rw [h0] at hcol
    norm_num at hcol
  have hoff : (0 : ℝ) < dv.length - 1e-5 := by
    norm_num at hcol ⊢
    linarith
  have hmax : max 0 (dv.length - 1e-5) = dv.length - 1e-5 := max_eq_right (le_of_lt hoff)
  have hdir : ((dv.normalize).multiplyScalar (max 0 (dv.length - 1e-5))).normalize
      = dv.normalize := by
    rw [hmax]
    exact V3.normalize_mulScalar_normalize hlen hoff
  constructor
  · intro hray
    refine ⟨v.addScaledVector dv.normalize (-(dv.normalize.dot v)), ?_, ?_, ?_⟩
    · simp only [Physics.resolveCollisions, ← hdv]
      rw [if_pos hcol]
      simp only [hv]
      rw [if_pos (by rw [hray]; rfl)]
      simp only [hdir]
    · rw [V3.dot_addScaled_left, V3.dot_normalize_self hlen]
      rw [V3.dot_comm v dv.normalize]
      ring
    · intro w hw
      rw [V3.dot_addScaled_right]
      have hwd : w.dot dv.normalize = 0 := by
        rw [V3.normalize_of_ne hlen, V3.dot_mulScalar_right, hw, mul_zero]
      rw [hwd, mul_zero, add_zero]
  · intro hray
    refine ⟨⟨v.x, 0, v.z⟩, ?_, rfl, rfl, rfl⟩
    simp only [Physics.resolveCollisions, ← hdv]
    rw [if_pos hcol]
    simp only [hv]
    rw [if_neg (by rw [if_pos hray]; simp)]

/-- Witness for C6: a concrete airborne colliding tick with velocity
(1, 2, 3) and an upward correction. -/
theorem C6_velocity_response_witness :
    (basePlayer V3.zero (some ⟨1, 2, 3⟩)).velocity = some ⟨1, 2, 3⟩ ∧
    ((envReady.matrixWorld.apply (⟨0, 2, 0⟩ : V3)).sub
        (basePlayer V3.zero (some ⟨1, 2, 3⟩)).position).length > 0.005 ∧
    ((noParams.raycastHits (basePlayer V3.zero (some ⟨1, 2, 3⟩)).position
        ((basePlayer V3.zero (some ⟨1, 2, 3⟩)).position.add ⟨0, -3, 0⟩) = 0 →
      ∃ v', (Physics.resolveCollisions 1 noParams envReady ⟨⟨0, 2, 0⟩, ⟨0, 1.5, 0⟩⟩
          (basePlayer V3.zero (some ⟨1, 2, 3⟩))).1.velocity = some v' ∧
        v'.dot (((envReady.matrixWorld.apply ((⟨0, 2, 0⟩ : V3))).sub
          (basePlayer V3.zero (some ⟨1, 2, 3⟩)).position).normalize) = 0 ∧
        ∀ w : V3, w.dot ((envReady.matrixWorld.apply ((⟨0, 2, 0⟩ : V3))).sub
            (basePlayer V3.zero (some ⟨1, 2, 3⟩)).position) = 0 →
          w.dot v' = w.dot (⟨1, 2, 3⟩ : V3))) := by
  have hsub : ((envReady.matrixWorld.apply (⟨0, 2, 0⟩ : V3)).sub
      (basePlayer V3.zero (some ⟨1, 2, 3⟩)).position) = (⟨0, 2, 0⟩ : V3) := by
    rw [show envReady.matrixWorld = Affine.idA from rfl, Affine.idA_apply]
    simp [basePlayer, V3.sub, V3.zero]
  have hcol : ((envReady.matrixWorld.apply (⟨0, 2, 0⟩ : V3)).sub
      (basePlayer V3.zero (some ⟨1, 2, 3⟩)).position).length > 0.005 := by
    rw [hsub, V3.length_y]
    norm_num
  exact ⟨rfl, hcol,
    (C6_velocity_response 1 noParams envReady ⟨⟨0, 2, 0⟩, ⟨0, 1.5, 0⟩⟩
      (basePlayer V3.zero (some ⟨1, 2, 3⟩)) ⟨1, 2, 3⟩ rfl hcol).1⟩

/-! ### Claim C2: ground classification -/

/-- The ground flag `resolveCollisions` stores: the raycast is issued from
the player position as it is on entry (the probe precedes the positional
correction), with `position + (0,-3,0)` as its direction argument. -/
theorem Physics.resolveCollisions_snd (delta : ℝ) (params : EngineParams) (env : EnvState)
    (line : Line3) (p : PlayerState) :
    (Physics.resolveCollisions delta params env line p).2
      = (if 0 < params.raycastHits p.position (p.position.add ⟨0, -3, 0⟩) then true else false) := by
  simp only [Physics.resolveCollisions]
  split
  · rcases hv : p.velocity with _ | v
    · simp only [hv]
    · simp only [hv]
      split <;> rfl
  · rfl

/-- Claim C2 amended: on every non-skipped tick the ground flag is set to
true exactly when the probe — issued from the pre-correction actor
position, with the position offset down by 3 units as its direction
argument — reports a hit; it is computed before the positional correction
is applied, hence against the pre-correction position. -/
theorem C2_ground_probe (delta : ℝ) (params : EngineParams) (st : Physics)
    (env : EnvState) (p : PlayerState)
    (he : st.environment = some env) (hb : env.boundsTree = true) (hp : st.player = some p) :
    (Physics.update delta params st).toOption.map (fun r => r.1.isOnGround)
      = some (if 0 < params.raycastHits p.position (p.position.add ⟨0, -3, 0⟩)
          then true else false) := by
  simp only [Physics.update, he, hp]
  rw [if_neg (by simp [hb])]
  simp only [Except.toOption, Option.map]
  rw [Physics.resolveCollisions_snd]
  rfl

/-- Witness for C2 amended at a concrete ready state. -/
theorem C2_ground_probe_witness :
    (Physics.update 1 noParams
        (⟨some (basePlayer ⟨0, 5, 0⟩ (some V3.zero)), some envReady, false, []⟩ : Physics)).toOption.map
        (fun r => r.1.isOnGround)
      = some (if 0 < noParams.raycastHits (basePlayer ⟨0, 5, 0⟩ (some V3.zero)).position
            ((basePlayer ⟨0, 5, 0⟩ (some V3.zero)).position.add ⟨0, -3, 0⟩)
          then true else false) :=
  C2_ground_probe 1 noParams _ envReady (basePlayer ⟨0, 5, 0⟩ (some V3.zero)) rfl rfl rfl

/-- Counterexample to claim C2 as stated: a colliding tick in which the
probe from the corrected position would hit (the corrected height is low
enough), yet the stored flag is false because the probe was cast from the
pre-correction position, above the hit threshold. -/
theorem C2_counterexample :
    (Physics.resolveCollisions 1 lowParams envReady ⟨⟨0, 0.5, 0⟩, V3.zero⟩
        (basePlayer ⟨0, 2, 0⟩ (some V3.zero))).2 = false ∧
    (Physics.resolveCollisions 1 lowParams envReady ⟨⟨0, 0.5, 0⟩, V3.zero⟩
        (basePlayer ⟨0, 2, 0⟩ (some V3.zero))).1.position
      ≠ (basePlayer ⟨0, 2, 0⟩ (some V3.zero)).position ∧
    0 < lowParams.raycastHits
        (Physics.resolveCollisions 1 lowParams envReady ⟨⟨0, 0.5, 0⟩, V3.zero⟩
          (basePlayer ⟨0, 2, 0⟩ (some V3.zero))).1.position
        ((Physics.resolveCollisions 1 lowParams envReady ⟨⟨0, 0.5, 0⟩, V3.zero⟩
          (basePlayer ⟨0, 2, 0⟩ (some V3.zero))).1.position.add ⟨0, -3, 0⟩) := by
  have hsub : ((envReady.matrixWorld.apply (⟨0, 0.5, 0⟩ : V3)).sub
      (basePlayer ⟨0, 2, 0⟩ (some V3.zero)).position) = (⟨0, -1.5, 0⟩ : V3) := by
    rw [show envReady.matrixWorld = Affine.idA from rfl, Affine.idA_apply]
    simp only [basePlayer]
    simp [V3.sub]
    norm_num
  have hlen : ((⟨0, -1.5, 0⟩ : V3)).length = 1.5 := by
    rw [V3.length_y]
    norm_num
  have hnorm : ((⟨0, -1.5, 0⟩ : V3)).normalize = (⟨0, -1, 0⟩ : V3) := by
    rw [V3.normalize_of_ne (by rw [hlen]; norm_num), hlen]
    simp only [V3.multiplyScalar]
    norm_num
  have hpos : (Physics.resolveCollisions 1 lowParams envReady ⟨⟨0, 0.5, 0⟩, V3.zero⟩
      (basePlayer ⟨0, 2, 0⟩ (some V3.zero))).1.position = (⟨0, 0.50001, 0⟩ : V3) := by
    simp only [Physics.resolveCollisions, hsub, hlen]
    rw [if_pos (by norm_num)]
    rw [show max 0 ((1.5 : ℝ) - 1e-5) = 1.5 - 1e-5 by norm_num, hnorm]
    rcases hv : (basePlayer ⟨0, 2, 0⟩ (some V3.zero)).velocity with _ | v
    · simp only [hv]
      simp only [basePlayer, V3.multiplyScalar, V3.add]
      norm_num
    · simp only [hv]
      split
      · simp only [basePlayer, V3.multiplyScalar, V3.add]
        norm_num
      · simp only [basePlayer, V3.multiplyScalar, V3.add]
        norm_num
  refine ⟨?_, ?_, ?_⟩
  · rw [Physics.resolveCollisions_snd]
    rw [if_neg ?_]
    simp only [lowParams, basePlayer]
    rw [if_neg (by norm_num)]
    norm_num
  · rw [hpos]
    simp only [basePlayer]
    intro h
    have := congrArg V3.y h
    norm_num at this
  · rw [hpos]
    simp only [lowParams]
    rw [if_pos (by norm_num)]
    norm_num

/-! ### Claim C8: update with zero delta -/

theorem V3.addScaled_zero (a v : V3) : a.addScaledVector v 0 = a := by
  cases a
  simp [V3.addScaledVector]

theorem V3.length_zero : (⟨0, 0, 0⟩ : V3).length = 0 := by
  simp [V3.length, V3.lengthSq, V3.dot]

theorem Affine.transl_apply (t v : V3) : ((⟨Mat3.idm, t⟩ : Affine)).apply v = v.add t := by
  simp [Affine.apply, Mat3.idm_mulVec]

/-- A trigger scan in which every registered sphere's overlap state agrees
with the recorded set changes nothing and emits nothing. -/
theorem scanTriggers_stable (regs : List TriggerEntity) (aabb : Box3) (set : List ℕ)
    (h : ∀ e ∈ regs, e.entityType.isTrigger = true → ∀ sp, e.sphere = some sp →
      (aabb.intersectsSphere (sp.applyAffine e.matrixWorld) ↔ e.id ∈ set)) :
    scanTriggers regs aabb set = (set, []) := by
  unfold scanTriggers
  induction regs with
  | nil => rfl
  | cons e rest ih =>
    simp only [List.foldl_cons]
    have hstep : scanStep aabb (set, []) e = (set, []) := by
      rcases hs : e.sphere with _ | sp
      · simp only [scanStep, hs]
        split <;> rfl
      · simp only [scanStep, hs]
        by_cases ht : e.entityType.isTrigger = true
        · rw [if_pos ht]
          have hiff := h e (List.mem_cons_self e rest) ht sp hs
          by_cases hc : aabb.intersectsSphere (sp.applyAffine e.matrixWorld)
          · have hw : e.id ∈ set := hiff.mp hc
            rw [if_neg (fun hh => hh.2 hw), if_neg (fun hh => hh.1 hc)]
          · have hw : e.id ∉ set := fun hmem => hc (hiff.mpr hmem)
            rw [if_neg (fun hh => hc hh.1), if_neg (fun hh => hw hh.2)]
        · rw [if_neg ht]
    rw [hstep]
    exact ih fun e' he' => h e' (List.mem_cons_of_mem e he')

/-- Claim C8 amended: `update 0` applies no gravity displacement and no
velocity integration; provided additionally that the tick's correction
delta is within the 0.005 epsilon and every registered trigger's overlap
state agrees with the recorded set, `update 0` leaves the actor position
unchanged and emits no trigger events. (Without those provisos a
penetrating reachable state is corrected — and may emit — even at delta
0, see the counterexample.) -/
theorem C8_update_zero (params : EngineParams) (st : Physics) (env : EnvState) (p : PlayerState)
    (he : st.environment = some env) (hb : env.boundsTree = true) (hp : st.player = some p)
    (hcorr : ((env.matrixWorld.apply (shapecast params.closest p.capsule.radius
        (params.bvhVisit (params.playerAABB p.position))
        ((p.capsule.lineSegment.applyAffine p.matrixWorld).applyAffine env.matrixWorld.invert)).start).sub
        p.position).length ≤ 0.005)
    (htrig : ∀ e ∈ params.registry, e.entityType.isTrigger = true →
      ∀ sp, e.sphere = some sp →
        ((params.playerAABB p.position).intersectsSphere (sp.applyAffine e.matrixWorld)
          ↔ e.id ∈ st.collidingEntities)) :
    (Physics.update 0 params st).toOption.map (fun r => (r.1.player.map (·.position), r.2))
      = some (some p.position, []) := by
  simp only [Physics.update, he, hp]
  rw [if_neg (by simp [hb])]
  simp only [Physics.checkCollisions, Physics.gravity, Physics.resolveCollisions]
  rw [scanTriggers_stable _ _ _ htrig]
  rw [if_neg (not_lt.mpr hcorr)]
  simp only [Except.toOption, Option.map, V3.addScaled_zero]

/-- Witness for C8 amended: an actor floating at height 5 with nothing
nearby. -/
theorem C8_update_zero_witness :
    (Physics.update 0 noParams
        (⟨some (basePlayer ⟨0, 5, 0⟩ (some V3.zero)), some envReady, false, []⟩ : Physics)).toOption.map
        (fun r => (r.1.player.map (·.position), r.2))
      = some (some (basePlayer ⟨0, 5, 0⟩ (some V3.zero)).position, []) := by
  refine C8_update_zero noParams _ envReady (basePlayer ⟨0, 5, 0⟩ (some V3.zero)) rfl rfl rfl ?_ ?_
  · have hline : ((basePlayer ⟨0, 5, 0⟩ (some V3.zero)).capsule.lineSegment.applyAffine
        (basePlayer ⟨0, 5, 0⟩ (some V3.zero)).matrixWorld).applyAffine
        envReady.matrixWorld.invert = (⟨⟨0, 5, 0⟩, ⟨0, 4.5, 0⟩⟩ : Line3) := by
      rw [show envReady.matrixWorld = Affine.idA from rfl, Affine.idA_invert]
      show ((Capsule.default.lineSegment.applyAffine (⟨Mat3.idm, ⟨0, 5, 0⟩⟩ : Affine)).applyAffine
        Affine.idA) = (⟨⟨0, 5, 0⟩, ⟨0, 4.5, 0⟩⟩ : Line3)
      simp only [Capsule.default, Line3.applyAffine, Affine.transl_apply, Affine.idA_apply]
      simp [V3.add, V3.zero]
      norm_num
    rw [hline]
    show ((envReady.matrixWorld.apply ((⟨⟨0, 5, 0⟩, ⟨0, 4.5, 0⟩⟩ : Line3)).start).sub ⟨0, 5, 0⟩).length ≤ 0.005
    rw [show envReady.matrixWorld = Affine.idA from rfl, Affine.idA_apply]
    rw [show ((⟨⟨0, 5, 0⟩, ⟨0, 4.5, 0⟩⟩ : Line3)).start = (⟨0, 5, 0⟩ : V3) from rfl]
    rw [show ((⟨0, 5, 0⟩ : V3).sub ⟨0, 5, 0⟩) = (⟨0, 0, 0⟩ : V3) by simp [V3.sub]]
    rw [V3.length_zero]
    norm_num
  · intro e he
    exact absurd he (List.not_mem_nil e)

/-- First tick of the C8 run: free fall from height 1.825 under
`update 0.25` — no collision yet, the integration carries the actor down
to height 0.6. -/
theorem C8_tick1 : Physics.update 0.25 fallParams C8state0 = .ok (C8state1, []) := by
  have hgrav : Physics.gravity 0.25 (basePlayer ⟨0, 1.825, 0⟩ (some V3.zero))
      = (⟨⟨0, 1.825, 0⟩, some ⟨0, -4.9, 0⟩, 2, Capsule.default, Mat3.idm,
          ⟨Mat3.idm, ⟨0, 1.825, 0⟩⟩⟩ : PlayerState) := by
    simp only [Physics.gravity, basePlayer, Option.getD, V3.zero]
    norm_num
  have hline : (Capsule.default.lineSegment.applyAffine (⟨Mat3.idm, ⟨0, 1.825, 0⟩⟩ : Affine)).applyAffine
      (envReady.matrixWorld.invert) = (⟨⟨0, 1.825, 0⟩, ⟨0, 1.325, 0⟩⟩ : Line3) := by
    rw [show envReady.matrixWorld = Affine.idA from rfl, Affine.idA_invert]
    simp only [Capsule.default, Line3.applyAffine, Affine.transl_apply, Affine.idA_apply]
    simp [V3.add, V3.zero]
    norm_num
  have hcast : shapecast fallParams.closest 0.25
      (fallParams.bvhVisit (fallParams.playerAABB ⟨0, 1.825, 0⟩))
      (⟨⟨0, 1.825, 0⟩, ⟨0, 1.325, 0⟩⟩ : Line3) = (⟨⟨0, 1.825, 0⟩, ⟨0, 1.325, 0⟩⟩ : Line3) := by
    simp only [fallParams, shapecast, List.foldl, closestFlat, solveTriangle]
    rw [if_neg (by norm_num)]
  have hresolve : Physics.resolveCollisions 0.25 fallParams envReady
      (⟨⟨0, 1.825, 0⟩, ⟨0, 1.325, 0⟩⟩ : Line3)
      (⟨⟨0, 1.825, 0⟩, some ⟨0, -4.9, 0⟩, 2, Capsule.default, Mat3.idm,
        ⟨Mat3.idm, ⟨0, 1.825, 0⟩⟩⟩ : PlayerState)
      = ((⟨⟨0, 1.825, 0⟩, some ⟨0, -4.9, 0⟩, 2, Capsule.default, Mat3.idm,
          ⟨Mat3.idm, ⟨0, 1.825, 0⟩⟩⟩ : PlayerState), false) := by
    simp only [Physics.resolveCollisions]
    rw [show envReady.matrixWorld = Affine.idA from rfl, Affine.idA_apply]
    rw [show ((⟨0, 1.825, 0⟩ : V3).sub ⟨0, 1.825, 0⟩) = (⟨0, 0, 0⟩ : V3) by simp [V3.sub]]
    rw [V3.length_zero]
    rw [if_neg (by norm_num)]
    simp only [fallParams]
    rw [if_neg (by norm_num)]
  simp only [Physics.update, C8state0]
  rw [if_neg (by simp [envReady])]
  rw [hgrav]
  simp only [Physics.checkCollisions]
  rw [show Capsule.default.radius = (0.25 : ℝ) from rfl]
  rw [hline, hcast, hresolve]
  rw [show scanTriggers fallParams.registry (fallParams.playerAABB ⟨0, 1.825, 0⟩) []
      = ([], []) from rfl]
  simp only [C8state1, envReady, Physics.mk.injEq, Except.ok.injEq, Prod.mk.injEq,
    PlayerState.mk.injEq, Option.some.injEq, V3.mk.injEq, V3.addScaledVector]
  norm_num

/-- Second tick of the C8 run: `update 0` from the penetrating state still
pushes the actor up by the (skinned) correction — a position change under
zero delta. -/
theorem C8_tick2 : Physics.update 0 fallParams C8state1 = .ok (C8state2, []) := by
  have hgrav : Physics.gravity 0 (⟨⟨0, 0.6, 0⟩, some ⟨0, -4.9, 0⟩, 2, Capsule.default, Mat3.idm,
      ⟨Mat3.idm, ⟨0, 0.6, 0⟩⟩⟩ : PlayerState)
      = (⟨⟨0, 0.6, 0⟩, some ⟨0, -4.9, 0⟩, 2, Capsule.default, Mat3.idm,
          ⟨Mat3.idm, ⟨0, 0.6, 0⟩⟩⟩ : PlayerState) := by
    simp only [Physics.gravity, Option.getD]
    norm_num
  have hline : (Capsule.default.lineSegment.applyAffine (⟨Mat3.idm, ⟨0, 0.6, 0⟩⟩ : Affine)).applyAffine
      (envReady.matrixWorld.invert) = (⟨⟨0, 0.6, 0⟩, ⟨0, 0.1, 0⟩⟩ : Line3) := by
    rw [show envReady.matrixWorld = Affine.idA from rfl, Affine.idA_invert]
    simp only [Capsule.default, Line3.applyAffine, Affine.transl_apply, Affine.idA_apply]
    simp [V3.add, V3.zero]
    norm_num
  have hcast : shapecast fallParams.closest 0.25
      (fallParams.bvhVisit (fallParams.playerAABB ⟨0, 0.6, 0⟩))
      (⟨⟨0, 0.6, 0⟩, ⟨0, 0.1, 0⟩⟩ : Line3) = (⟨⟨0, 0.75, 0⟩, ⟨0, 0.25, 0⟩⟩ : Line3) := by
    simp only [fallParams, shapecast, List.foldl, closestFlat, solveTriangle]
    rw [if_pos (by norm_num)]
    rw [show ((⟨0, 0.1, 0⟩ : V3).sub ⟨0, 0, 0⟩) = (⟨0, 0.1, 0⟩ : V3) by simp [V3.sub]]
    rw [V3.normalize_y (by norm_num : (0 : ℝ) < 0.1)]
    simp only [V3.addScaledVector, Line3.mk.injEq, V3.mk.injEq]
    norm_num
  have hl : (⟨0, 0.15, 0⟩ : V3).length = 0.15 := by
    rw [V3.length_y]; norm_num
  have hresolve : Physics.resolveCollisions 0 fallParams envReady
      (⟨⟨0, 0.75, 0⟩, ⟨0, 0.25, 0⟩⟩ : Line3)
      (⟨⟨0, 0.6, 0⟩, some ⟨0, -4.9, 0⟩, 2, Capsule.default, Mat3.idm,
        ⟨Mat3.idm, ⟨0, 0.6, 0⟩⟩⟩ : PlayerState)
      = ((⟨⟨0, 0.74999, 0⟩, some ⟨0, 0, 0⟩, 2, Capsule.default, Mat3.idm,
          ⟨Mat3.idm, ⟨0, 0.6, 0⟩⟩⟩ : PlayerState), false) := by
    simp only [Physics.resolveCollisions]
    rw [show envReady.matrixWorld = Affine.idA from rfl, Affine.idA_apply]
    rw [show ((⟨0, 0.75, 0⟩ : V3).sub ⟨0, 0.6, 0⟩) = (⟨0, 0.15, 0⟩ : V3) by
      simp [V3.sub]; norm_num]
    rw [hl]
    rw [if_pos (by norm_num)]
    rw [show max 0 ((0.15 : ℝ) - 1e-5) = 0.15 - 1e-5 by norm_num]
    rw [V3.normalize_y (by norm_num : (0 : ℝ) < 0.15)]
    rw [show ((⟨0, 1, 0⟩ : V3).multiplyScalar (0.15 - 1e-5)) = (⟨0, 0.14999, 0⟩ : V3) by
      simp [V3.multiplyScalar]; norm_num]
    simp only [fallParams]
    rw [if_neg (by norm_num : ¬ (0 : ℕ) < 0)]
    rw [if_pos rfl]
    rw [V3.normalize_y (by norm_num : (0 : ℝ) < 0.14999)]
    simp only [V3.dot, V3.add, V3.addScaledVector, Prod.mk.injEq, PlayerState.mk.injEq,
      Option.some.injEq, V3.mk.injEq]
    norm_num
  simp only [Physics.update, C8state1]
  rw [if_neg (by simp [envReady])]
  rw [hgrav]
  simp only [Physics.checkCollisions]
  rw [show Capsule.default.radius = (0.25 : ℝ) from rfl]
  rw [hline, hcast, hresolve]
  rw [show scanTriggers fallParams.registry (fallParams.playerAABB ⟨0, 0.6, 0⟩) []
      = ([], []) from rfl]
  simp only [C8state2, envReady, V3.addScaled_zero, Physics.mk.injEq, Except.ok.injEq,
    Prod.mk.injEq, PlayerState.mk.injEq, Option.some.injEq, V3.mk.injEq, V3.zero]

/-- Counterexample to claim C8 as stated: `C8state1` is reachable (one
`init` and one `update 0.25` from the constructor state), its BVH is
ready, yet `update 0` changes the actor's position — the collision
correction is applied regardless of delta. -/
theorem C8_counterexample :
    C8state0 = Physics.new.init (basePlayer ⟨0, 1.825, 0⟩ (some V3.zero)) (some envReady) ∧
    Physics.update 0.25 fallParams C8state0 = .ok (C8state1, []) ∧
    C8state1.environment = some envReady ∧ envReady.boundsTree = true ∧
    Physics.update 0 fallParams C8state1 = .ok (C8state2, []) ∧
    C8state2.player.map (·.position) ≠ C8state1.player.map (·.position) := by
  refine ⟨rfl, C8_tick1, rfl, rfl, C8_tick2, ?_⟩
  simp only [C8state1, C8state2, Option.map]
  intro h
  simp only [Option.some.injEq, V3.mk.injEq] at h
  norm_num at h

/-! ### Claim C3: the per-tick order -/

/-- Claim C3 amended: each non-skipped tick executes as gravity →
`checkCollisions` (solver accumulation, then the trigger scan, inside the
collision-check phase and against the actor's pre-correction bounds) →
`resolveCollisions` (ground probe from the pre-correction position, then
positional correction and velocity reshape) → velocity integration and
matrix refresh. The trigger scan and the ground probe therefore precede
the positional correction, not follow it. -/
theorem C3_tick_order (delta : ℝ) (params : EngineParams) (st : Physics)
    (env : EnvState) (p : PlayerState)
    (he : st.environment = some env) (hb : env.boundsTree = true) (hp : st.player = some p) :
    Physics.update delta params st = .ok
      (⟨some (Physics.integrate delta
          (Physics.resolveCollisions delta params env
            (Physics.checkCollisions params env st.collidingEntities (Physics.gravity delta p)).1
            (Physics.gravity delta p)).1),
        st.environment,
        (Physics.resolveCollisions delta params env
          (Physics.checkCollisions params env st.collidingEntities (Physics.gravity delta p)).1
          (Physics.gravity delta p)).2,
        (Physics.checkCollisions params env st.collidingEntities (Physics.gravity delta p)).2.1⟩,
       (Physics.checkCollisions params env st.collidingEntities (Physics.gravity delta p)).2.2) ∧
    (Physics.checkCollisions params env st.collidingEntities (Physics.gravity delta p)).2
      = scanTriggers params.registry (params.playerAABB p.position) st.collidingEntities ∧
    (Physics.resolveCollisions delta params env
        (Physics.checkCollisions params env st.collidingEntities (Physics.gravity delta p)).1
        (Physics.gravity delta p)).2
      = (if 0 < params.raycastHits p.position (p.position.add ⟨0, -3, 0⟩) then true else false) := by
  refine ⟨?_, rfl, ?_⟩
  · simp only [Physics.update, he, hp]
    rw [if_neg (by simp [hb])]
    simp only [Physics.integrate]
  · rw [Physics.resolveCollisions_snd]
    rfl

/-- Witness for C3 amended at a concrete ready state. -/
theorem C3_tick_order_witness :
    Physics.update 1 noParams
        (⟨some (basePlayer ⟨0, 5, 0⟩ (some V3.zero)), some envReady, false, []⟩ : Physics) = .ok
      (⟨some (Physics.integrate 1
          (Physics.resolveCollisions 1 noParams envReady
            (Physics.checkCollisions noParams envReady []
              (Physics.gravity 1 (basePlayer ⟨0, 5, 0⟩ (some V3.zero)))).1
            (Physics.gravity 1 (basePlayer ⟨0, 5, 0⟩ (some V3.zero)))).1),
        some envReady,
        (Physics.resolveCollisions 1 noParams envReady
          (Physics.checkCollisions noParams envReady []
            (Physics.gravity 1 (basePlayer ⟨0, 5, 0⟩ (some V3.zero)))).1
          (Physics.gravity 1 (basePlayer ⟨0, 5, 0⟩ (some V3.zero)))).2,
        (Physics.checkCollisions noParams envReady []
          (Physics.gravity 1 (basePlayer ⟨0, 5, 0⟩ (some V3.zero)))).2.1⟩,
       (Physics.checkCollisions noParams envReady []
        (Physics.gravity 1 (basePlayer ⟨0, 5, 0⟩ (some V3.zero)))).2.2) ∧
    (Physics.checkCollisions noParams envReady []
        (Physics.gravity 1 (basePlayer ⟨0, 5, 0⟩ (some V3.zero)))).2
      = scanTriggers noParams.registry
          (noParams.playerAABB (basePlayer ⟨0, 5, 0⟩ (some V3.zero)).position) [] ∧
    (Physics.resolveCollisions 1 noParams envReady
        (Physics.checkCollisions noParams envReady []
          (Physics.gravity 1 (basePlayer ⟨0, 5, 0⟩ (some V3.zero)))).1
        (Physics.gravity 1 (basePlayer ⟨0, 5, 0⟩ (some V3.zero)))).2
      = (if 0 < noParams.raycastHits (basePlayer ⟨0, 5, 0⟩ (some V3.zero)).position
            ((basePlayer ⟨0, 5, 0⟩ (some V3.zero)).position.add ⟨0, -3, 0⟩)
          then true else false) :=
  C3_tick_order 1 noParams _ envReady (basePlayer ⟨0, 5, 0⟩ (some V3.zero)) rfl rfl rfl

theorem Mat3.idm_maxScale : Mat3.idm.getMaxScaleOnAxis = 1 := by
  rw [Mat3.getMaxScaleOnAxis]
  norm_num [Mat3.idm, Real.sqrt_one]

theorem Sphere.applyAffine_idA (s : Sphere) : s.applyAffine Affine.idA = s := by
  cases s with
  | mk c r =>
    simp only [Sphere.applyAffine]
    rw [show Affine.idA.lin = Mat3.idm from rfl, Mat3.idm_maxScale, Affine.idA_apply, mul_one]

/-- The bubble sphere does not reach the player bounds at height 0.6. -/
theorem bubble_miss : ¬ (trigParams.playerAABB ⟨0, 0.6, 0⟩).intersectsSphere
    ((⟨⟨0, 1.2, 0⟩, 0.01⟩ : Sphere).applyAffine bubbleEntity.matrixWorld) := by
  rw [show bubbleEntity.matrixWorld = Affine.idA from rfl, Sphere.applyAffine_idA]
  simp only [trigParams, Box3.intersectsSphere, Box3.clampPoint, V3.distanceToSquared,
    V3.lengthSq, V3.dot, V3.sub, V3.add]
  norm_num [min_def, max_def]

/-- The bubble sphere does reach the player bounds at height 0.74999. -/
theorem bubble_hit : (trigParams.playerAABB ⟨0, 0.74999, 0⟩).intersectsSphere
    ((⟨⟨0, 1.2, 0⟩, 0.01⟩ : Sphere).applyAffine bubbleEntity.matrixWorld) := by
  rw [show bubbleEntity.matrixWorld = Affine.idA from rfl, Sphere.applyAffine_idA]
  simp only [trigParams, Box3.intersectsSphere, Box3.clampPoint, V3.distanceToSquared,
    V3.lengthSq, V3.dot, V3.sub, V3.add]
  norm_num [min_def, max_def]

/-- The C3 tick: `update 0` from the penetrating state with the bubble
trigger registered corrects the actor upward and emits no event. -/
theorem C3_tick : Physics.update 0 trigParams C3state0 = .ok (C3state1, []) := by
  have hgrav : Physics.gravity 0 (basePlayer ⟨0, 0.6, 0⟩ (some V3.zero))
      = (⟨⟨0, 0.6, 0⟩, some ⟨0, 0, 0⟩, 2, Capsule.default, Mat3.idm,
          ⟨Mat3.idm, ⟨0, 0.6, 0⟩⟩⟩ : PlayerState) := by
    simp only [Physics.gravity, basePlayer, Option.getD, V3.zero]
    norm_num
  have hline : (Capsule.default.lineSegment.applyAffine (⟨Mat3.idm, ⟨0, 0.6, 0⟩⟩ : Affine)).applyAffine
      (envReady.matrixWorld.invert) = (⟨⟨0, 0.6, 0⟩, ⟨0, 0.1, 0⟩⟩ : Line3) := by
    rw [show envReady.matrixWorld = Affine.idA from rfl, Affine.idA_invert]
    simp only [Capsule.default, Line3.applyAffine, Affine.transl_apply, Affine.idA_apply]
    simp [V3.add, V3.zero]
    norm_num
  have hcast : shapecast trigParams.closest 0.25
      (trigParams.bvhVisit (trigParams.playerAABB ⟨0, 0.6, 0⟩))
      (⟨⟨0, 0.6, 0⟩, ⟨0, 0.1, 0⟩⟩ : Line3) = (⟨⟨0, 0.75, 0⟩, ⟨0, 0.25, 0⟩⟩ : Line3) := by
    simp only [trigParams, shapecast, List.foldl, closestFlat, solveTriangle]
    rw [if_pos (by norm_num)]
    rw [show ((⟨0, 0.1, 0⟩ : V3).sub ⟨0, 0, 0⟩) = (⟨0, 0.1, 0⟩ : V3) by simp [V3.sub]]
    rw [V3.normalize_y (by norm_num : (0 : ℝ) < 0.1)]
    simp only [V3.addScaledVector, Line3.mk.injEq, V3.mk.injEq]
    norm_num
  have hscan : scanTriggers trigParams.registry (trigParams.playerAABB ⟨0, 0.6, 0⟩) []
      = ([], []) := by
    rw [show trigParams.registry = [bubbleEntity] from rfl]
    simp only [scanTriggers, List.foldl, scanStep]
    rw [if_pos (show bubbleEntity.entityType.isTrigger = true from rfl)]
    rw [show bubbleEntity.sphere = some (⟨⟨0, 1.2, 0⟩, 0.01⟩ : Sphere) from rfl]
    simp only []
    rw [if_neg (fun hh => bubble_miss hh.1),
      if_neg (fun hh => (List.not_mem_nil bubbleEntity.id) hh.2)]
  have hl : (⟨0, 0.15, 0⟩ : V3).length = 0.15 := by
    rw [V3.length_y]; norm_num
  have hresolve : Physics.resolveCollisions 0 trigParams envReady
      (⟨⟨0, 0.75, 0⟩, ⟨0, 0.25, 0⟩⟩ : Line3)
      (⟨⟨0, 0.6, 0⟩, some ⟨0, 0, 0⟩, 2, Capsule.default, Mat3.idm,
        ⟨Mat3.idm, ⟨0, 0.6, 0⟩⟩⟩ : PlayerState)
      = ((⟨⟨0, 0.74999, 0⟩, some ⟨0, 0, 0⟩, 2, Capsule.default, Mat3.idm,
          ⟨Mat3.idm, ⟨0, 0.6, 0⟩⟩⟩ : PlayerState), false) := by
    simp only [Physics.resolveCollisions]
    rw [show envReady.matrixWorld = Affine.idA from rfl, Affine.idA_apply]
    rw [show ((⟨0, 0.75, 0⟩ : V3).sub ⟨0, 0.6, 0⟩) = (⟨0, 0.15, 0⟩ : V3) by
      simp [V3.sub]; norm_num]
    rw [hl]
    rw [if_pos (by norm_num)]
    rw [show max 0 ((0.15 : ℝ) - 1e-5) = 0.15 - 1e-5 by norm_num]
    rw [V3.normalize_y (by norm_num : (0 : ℝ) < 0.15)]
    rw [show ((⟨0, 1, 0⟩ : V3).multiplyScalar (0.15 - 1e-5)) = (⟨0, 0.14999, 0⟩ : V3) by
      simp [V3.multiplyScalar]; norm_num]
    simp only [trigParams]
    rw [if_neg (by norm_num : ¬ (0 : ℕ) < 0)]
    rw [if_pos rfl]
    rw [V3.normalize_y (by norm_num : (0 : ℝ) < 0.14999)]
    simp only [V3.dot, V3.add, V3.addScaledVector, Prod.mk.injEq, PlayerState.mk.injEq,
      Option.some.injEq, V3.mk.injEq]
    norm_num
  simp only [Physics.update, C3state0]
  rw [if_neg (by simp [envReady])]
  rw [hgrav]
  simp only [Physics.checkCollisions]
  rw [show Capsule.default.radius = (0.25 : ℝ) from rfl]
  rw [hline, hcast, hscan, hresolve]
  simp only [C3state1, envReady, V3.addScaled_zero, Physics.mk.injEq, Except.ok.injEq,
    Prod.mk.injEq, PlayerState.mk.injEq, Option.some.injEq, V3.mk.injEq, V3.zero]

/-- Counterexample to claim C3 as stated: the tick's corrected bounds
overlap the registered trigger sphere (an enter would fire if the scan ran
after the correction, as the claim orders it), yet the tick emits no
event — the scan ran inside the collision check, against the
pre-correction bounds, which the sphere does not reach. -/
theorem C3_counterexample :
    trigParams.registry = [bubbleEntity] ∧
    Physics.update 0 trigParams C3state0 = .ok (C3state1, []) ∧
    C3state1.player.map (·.position) = some ⟨0, 0.74999, 0⟩ ∧
    (trigParams.playerAABB ⟨0, 0.74999, 0⟩).intersectsSphere
      ((⟨⟨0, 1.2, 0⟩, 0.01⟩ : Sphere).applyAffine bubbleEntity.matrixWorld) ∧
    ¬ (trigParams.playerAABB (⟨0, 0.6, 0⟩ : V3)).intersectsSphere
      ((⟨⟨0, 1.2, 0⟩, 0.01⟩ : Sphere).applyAffine bubbleEntity.matrixWorld) :=
  ⟨rfl, C3_tick, rfl, bubble_hit, bubble_miss⟩

/-! ### Claim C7: edge-triggered trigger events -/

theorem flagsFor_append (n : ℕ) (a b : List PhysicsEvent) :
    flagsFor n (a ++ b) = flagsFor n a ++ flagsFor n b := by
  simp [flagsFor, List.filter_append]

theorem flagsFor_cons (n a : ℕ) (b : Bool) (l : List PhysicsEvent) :
    flagsFor n (⟨a, b⟩ :: l) = if a = n then b :: flagsFor n l else flagsFor n l := by
  by_cases h : a = n
  · simp [flagsFor, h]
  · simp [flagsFor, h]

theorem altFrom_congr {m1 m2 : Prop} (h : m1 ↔ m2) (l : List Bool) :
    altFrom m1 l ↔ altFrom m2 l := by
  cases l with
  | nil => exact Iff.rfl
  | cons b bs => simp only [altFrom]; rw [h]

theorem endsOverlapping_congr {m1 m2 : Prop} (h : m1 ↔ m2) (l : List Bool) :
    endsOverlapping m1 l ↔ endsOverlapping m2 l := by
  cases hl : l.getLast? with
  | none => simp only [endsOverlapping, hl]; exact h
  | some b => simp only [endsOverlapping, hl]

theorem endsOverlapping_nil (m : Prop) : endsOverlapping m [] ↔ m := Iff.rfl

theorem endsOverlapping_cons (m : Prop) (b : Bool) (l : List Bool) :
    endsOverlapping m (b :: l) ↔ endsOverlapping (b = true) l := by
  cases l with
  | nil => exact Iff.rfl
  | cons c cs =>
    have h : (b :: c :: cs).getLast? = (c :: cs).getLast? :=
      List.getLast?_append_of_ne_nil [b] (by simp)
    cases hg : (c :: cs).getLast? with
    | none => simp [List.getLast?_eq_none_iff] at hg
    | some b2 => simp only [endsOverlapping, h, hg]

theorem endsOverlapping_append (m : Prop) (l1 l2 : List Bool) :
    endsOverlapping m (l1 ++ l2) ↔ endsOverlapping (endsOverlapping m l1) l2 := by
  cases l2 with
  | nil => simp only [List.append_nil]; exact Iff.rfl
  | cons c cs =>
    have h : (l1 ++ c :: cs).getLast? = (c :: cs).getLast? :=
      List.getLast?_append_of_ne_nil l1 (by simp)
    cases hg : (c :: cs).getLast? with
    | none => simp [List.getLast?_eq_none_iff] at hg
    | some b2 => simp only [endsOverlapping, h, hg]

theorem altFrom_append (m : Prop) (l1 l2 : List Bool) :
    altFrom m (l1 ++ l2) ↔ altFrom m l1 ∧ altFrom (endsOverlapping m l1) l2 := by
  induction l1 generalizing m with
  | nil => simp [altFrom, endsOverlapping]
  | cons b bs ih =>
    simp only [List.cons_append, altFrom, List.append_eq]
    rw [ih (b = true), endsOverlapping_cons]
    tauto

theorem altFrom_chain {m : Prop} {l : List Bool} (h : altFrom m l) :
    List.Chain' (fun a b => b = !a) l := by
  induction l generalizing m with
  | nil => simp
  | cons b bs ih =>
    cases bs with
    | nil => simp
    | cons c cs =>
      rw [List.chain'_cons]
      have hcb : (c = true) ↔ ¬(b = true) := h.2.1
      refine ⟨by cases b <;> cases c <;> simp_all, ih h.2⟩

/-- `scanStep` leaves previously accumulated events in place and appends
its own. -/
theorem scanStep_acc (aabb : Box3) (set : List ℕ) (evs : List PhysicsEvent) (e : TriggerEntity) :
    scanStep aabb (set, evs) e
      = ((scanStep aabb (set, []) e).1, evs ++ (scanStep aabb (set, []) e).2) := by
  rcases hs : e.sphere with _ | sp
  · simp only [scanStep, hs]
    split <;> simp
  · simp only [scanStep, hs]
    by_cases ht : e.entityType.isTrigger = true
    · rw [if_pos ht, if_pos ht]
      by_cases h1 : aabb.intersectsSphere (sp.applyAffine e.matrixWorld) ∧ ¬ e.id ∈ set
      · rw [if_pos h1, if_pos h1]
        simp
      · rw [if_neg h1, if_neg h1]
        by_cases h2 : ¬ aabb.intersectsSphere (sp.applyAffine e.matrixWorld) ∧ e.id ∈ set
        · rw [if_pos h2, if_pos h2]
          simp
        · rw [if_neg h2, if_neg h2]
          simp
    · rw [if_neg ht, if_neg ht]
      simp

theorem scan_foldl_acc (aabb : Box3) (regs : List TriggerEntity) (set : List ℕ)
    (evs : List PhysicsEvent) :
    List.foldl (scanStep aabb) (set, evs) regs
      = ((List.foldl (scanStep aabb) (set, []) regs).1,
         evs ++ (List.foldl (scanStep aabb) (set, []) regs).2) := by
  induction regs generalizing set evs with
  | nil => simp
  | cons e rest ih =>
    simp only [List.foldl_cons]
    rw [scanStep_acc aabb set evs e]
    rw [ih (scanStep aabb (set, []) e).1 (evs ++ (scanStep aabb (set, []) e).2)]
    rw [ih (scanStep aabb (set, []) e).1 (scanStep aabb (set, []) e).2]
    simp [List.append_assoc]

/-- A case analysis of one trigger-scan step. -/
theorem scanStep_cases (aabb : Box3) (set : List ℕ) (e : TriggerEntity) :
    scanStep aabb (set, []) e = (set, [])
    ∨ (∃ sp, e.sphere = some sp ∧ e.entityType.isTrigger = true ∧
        aabb.intersectsSphere (sp.applyAffine e.matrixWorld) ∧ e.id ∉ set ∧
        scanStep aabb (set, []) e = (e.id :: set, [⟨e.id, true⟩]))
    ∨ (∃ sp, e.sphere = some sp ∧ e.entityType.isTrigger = true ∧
        ¬ aabb.intersectsSphere (sp.applyAffine e.matrixWorld) ∧ e.id ∈ set ∧
        scanStep aabb (set, []) e = (set.erase e.id, [⟨e.id, false⟩])) := by
  rcases hs : e.sphere with _ | sp
  · left
    simp only [scanStep, hs]
    split <;> rfl
  · by_cases ht : e.entityType.isTrigger = true
    · by_cases h1 : aabb.intersectsSphere (sp.applyAffine e.matrixWorld)
      · by_cases h2 : e.id ∈ set
        · left
          simp only [scanStep, hs]
          rw [if_pos ht, if_neg (fun hh => hh.2 h2), if_neg (fun hh => hh.1 h1)]
        · right; left
          refine ⟨sp, rfl, ht, h1, h2, ?_⟩
          simp only [scanStep, hs]
          rw [if_pos ht, if_pos ⟨h1, h2⟩]
          simp
      · by_cases h2 : e.id ∈ set
        · right; right
          refine ⟨sp, rfl, ht, h1, h2, ?_⟩
          simp only [scanStep, hs]
          rw [if_pos ht, if_neg (fun hh => h1 hh.1), if_pos ⟨h1, h2⟩]
          simp
        · left
          simp only [scanStep, hs]
          rw [if_pos ht, if_neg (fun hh => h1 hh.1), if_neg (fun hh => h2 hh.2)]
    · left
      simp only [scanStep, hs]
      rw [if_neg ht]

/-- One whole trigger scan, tracked for a single entity id `n`: the scan
preserves distinctness of the recorded set, the events it emits for `n`
strictly alternate from `n`'s current overlap state, and afterwards `n` is
recorded exactly when its last event was an enter (or it was already
recorded and got no event). -/
theorem scan_alt (aabb : Box3) (regs : List TriggerEntity) (set : List ℕ) (n : ℕ)
    (hnd : set.Nodup) :
    (List.foldl (scanStep aabb) (set, ([] : List PhysicsEvent)) regs).1.Nodup ∧
    altFrom (n ∈ set) (flagsFor n (List.foldl (scanStep aabb) (set, []) regs).2) ∧
    ((n ∈ (List.foldl (scanStep aabb) (set, []) regs).1)
      ↔ endsOverlapping (n ∈ set) (flagsFor n (List.foldl (scanStep aabb) (set, []) regs).2)) := by
  induction regs generalizing set with
  | nil => exact ⟨hnd, trivial, Iff.rfl⟩
  | cons e rest ih =>
    rw [List.foldl_cons]
    rcases scanStep_cases aabb set e with hstep | ⟨sp, hs, ht, hc, hm, hstep⟩
      | ⟨sp, hs, ht, hc, hm, hstep⟩
    · rw [hstep]
      exact ih set hnd
    · rw [hstep]
      have hnd' : (e.id :: set).Nodup := List.nodup_cons.mpr ⟨hm, hnd⟩
      obtain ⟨ihnd, ihalt, ihmem⟩ := ih (e.id :: set) hnd'
      have hF1 : (List.foldl (scanStep aabb) (e.id :: set, [⟨e.id, true⟩]) rest).1
          = (List.foldl (scanStep aabb) (e.id :: set, []) rest).1 := by
        rw [scan_foldl_acc]
      have hF2 : (List.foldl (scanStep aabb) (e.id :: set, [⟨e.id, true⟩]) rest).2
          = (⟨e.id, true⟩ : PhysicsEvent) :: (List.foldl (scanStep aabb) (e.id :: set, []) rest).2 := by
        rw [scan_foldl_acc]
        rfl
      rw [hF1, hF2, flagsFor_cons]
      by_cases hen : e.id = n
      · rw [if_pos hen]
        subst hen
        refine ⟨ihnd, ⟨by simp [hm], ?_⟩, ?_⟩
        · exact (altFrom_congr (show (e.id ∈ e.id :: set) ↔ (true = true) by simp) _).mp ihalt
        · rw [endsOverlapping_cons]
          exact ihmem.trans (endsOverlapping_congr (by simp) _)
      · rw [if_neg hen]
        have hmemiff : (n ∈ e.id :: set) ↔ (n ∈ set) :=
          List.mem_cons.trans (or_iff_right fun h => hen h.symm)
        exact ⟨ihnd, (altFrom_congr hmemiff _).mp ihalt,
          ihmem.trans (endsOverlapping_congr hmemiff _)⟩
    · rw [hstep]
      have hnd' : (set.erase e.id).Nodup := hnd.erase e.id
      obtain ⟨ihnd, ihalt, ihmem⟩ := ih (set.erase e.id) hnd'
      have hF1 : (List.foldl (scanStep aabb) (set.erase e.id, [⟨e.id, false⟩]) rest).1
          = (List.foldl (scanStep aabb) (set.erase e.id, []) rest).1 := by
        rw [scan_foldl_acc]
      have hF2 : (List.foldl (scanStep aabb) (set.erase e.id, [⟨e.id, false⟩]) rest).2
          = (⟨e.id, false⟩ : PhysicsEvent) :: (List.foldl (scanStep aabb) (set.erase e.id, []) rest).2 := by
        rw [scan_foldl_acc]
        rfl
      rw [hF1, hF2, flagsFor_cons]
      by_cases hen : e.id = n
      · rw [if_pos hen]
        subst hen
        refine ⟨ihnd, ⟨by simp [hm], ?_⟩, ?_⟩
        · exact (altFrom_congr (show (e.id ∈ set.erase e.id) ↔ (false = true) by
            simp [hnd.not_mem_erase]) _).mp ihalt
        · rw [endsOverlapping_cons]
          exact ihmem.trans (endsOverlapping_congr (by simp [hnd.not_mem_erase]) _)
      · rw [if_neg hen]
        have hmemiff : (n ∈ set.erase e.id) ↔ (n ∈ set) :=
          List.mem_erase_of_ne fun h => hen h.symm
        exact ⟨ihnd, (altFrom_congr hmemiff _).mp ihalt,
          ihmem.trans (endsOverlapping_congr hmemiff _)⟩

theorem runTicks_acc (ticks : List (List TriggerEntity × Box3)) (set : List ℕ)
    (evs : List PhysicsEvent) :
    List.foldl (fun acc t =>
        let r := scanTriggers t.1 t.2 acc.1
        (r.1, acc.2 ++ r.2)) (set, evs) ticks
      = ((runTicks ticks set).1, evs ++ (runTicks ticks set).2) := by
  induction ticks generalizing set evs with
  | nil => simp [runTicks]
  | cons t ts ih =>
    simp only [runTicks, List.foldl_cons]
    rw [ih (scanTriggers t.1 t.2 set).1 (evs ++ (scanTriggers t.1 t.2 set).2)]
    rw [ih (scanTriggers t.1 t.2 set).1 ([] ++ (scanTriggers t.1 t.2 set).2)]
    simp [List.append_assoc]

theorem runTicks_cons (t : List TriggerEntity × Box3) (ticks : List (List TriggerEntity × Box3))
    (set : List ℕ) :
    runTicks (t :: ticks) set
      = ((runTicks ticks (scanTriggers t.1 t.2 set).1).1,
         (scanTriggers t.1 t.2 set).2 ++ (runTicks ticks (scanTriggers t.1 t.2 set).1).2) := by
  rw [show runTicks (t :: ticks) set
      = List.foldl (fun acc r =>
          let s := scanTriggers r.1 r.2 acc.1
          (s.1, acc.2 ++ s.2)) ((scanTriggers t.1 t.2 set).1, [] ++ (scanTriggers t.1 t.2 set).2) ticks
      from rfl]
  rw [runTicks_acc]
  simp

/-- The multi-tick alternation invariant for one entity id. -/
theorem runTicks_alt (ticks : List (List TriggerEntity × Box3)) (set : List ℕ) (n : ℕ)
    (hnd : set.Nodup) :
    (runTicks ticks set).1.Nodup ∧
    altFrom (n ∈ set) (flagsFor n (runTicks ticks set).2) ∧
    ((n ∈ (runTicks ticks set).1)
      ↔ endsOverlapping (n ∈ set) (flagsFor n (runTicks ticks set).2)) := by
  induction ticks generalizing set with
  | nil => exact ⟨hnd, trivial, Iff.rfl⟩
  | cons t ts ih =>
    obtain ⟨h1nd, h1alt, h1mem⟩ := scan_alt t.2 t.1 set n hnd
    obtain ⟨ihnd, ihalt, ihmem⟩ := ih (scanTriggers t.1 t.2 set).1 h1nd
    rw [runTicks_cons]
    have h1alt' : altFrom (n ∈ set) (flagsFor n (scanTriggers t.1 t.2 set).2) := h1alt
    have h1mem' : (n ∈ (scanTriggers t.1 t.2 set).1)
        ↔ endsOverlapping (n ∈ set) (flagsFor n (scanTriggers t.1 t.2 set).2) := h1mem
    refine ⟨ihnd, ?_, ?_⟩
    · rw [flagsFor_append, altFrom_append]
      exact ⟨h1alt', (altFrom_congr h1mem' _).mp ihalt⟩
    · rw [flagsFor_append, endsOverlapping_append]
      exact ihmem.trans (endsOverlapping_congr h1mem' _)

/-- Claim C7: the trigger tracker is edge-triggered and strictly
alternating. For any registry entry carrying a trigger sphere: an enter
event fires exactly on a false-to-true overlap transition and records the
entity, an exit exactly on true-to-false and removes it, and an unchanged
overlap state produces no event and no set change. Over any sequence of
scans starting from the empty overlapping set, the events any fixed entity
receives strictly alternate from NotOverlapping: the first is an enter,
each event flips the state, and two consecutive enters never occur. -/
theorem C7_trigger_alternation :
    (∀ (aabb : Box3) (set : List ℕ) (evs : List PhysicsEvent) (e : TriggerEntity) (sp : Sphere),
      e.entityType.isTrigger = true → e.sphere = some sp →
      ((aabb.intersectsSphere (sp.applyAffine e.matrixWorld) ∧ e.id ∉ set →
          scanStep aabb (set, evs) e = (e.id :: set, evs ++ [⟨e.id, true⟩])) ∧
        (¬ aabb.intersectsSphere (sp.applyAffine e.matrixWorld) ∧ e.id ∈ set →
          scanStep aabb (set, evs) e = (set.erase e.id, evs ++ [⟨e.id, false⟩])) ∧
        ((aabb.intersectsSphere (sp.applyAffine e.matrixWorld) ↔ e.id ∈ set) →
          scanStep aabb (set, evs) e = (set, evs)))) ∧
    (∀ (ticks : List (List TriggerEntity × Box3)) (n : ℕ),
      altFrom False (flagsFor n (runTicks ticks []).2) ∧
      List.Chain' (fun a b => b = !a) (flagsFor n (runTicks ticks []).2) ∧
      (∀ b, (flagsFor n (runTicks ticks []).2).head? = some b → b = true)) := by
  constructor
  · intro aabb set evs e sp ht hs
    refine ⟨?_, ?_, ?_⟩
    · intro ⟨h1, h2⟩
      simp only [scanStep, hs]
      rw [if_pos ht, if_pos ⟨h1, h2⟩]
    · intro ⟨h1, h2⟩
      simp only [scanStep, hs]
      rw [if_pos ht, if_neg (fun hh => h1 hh.1), if_pos ⟨h1, h2⟩]
    · intro h
      simp only [scanStep, hs]
      rw [if_pos ht, if_neg (fun hh => hh.2 (h.mp hh.1)),
        if_neg (fun hh => hh.1 (h.mpr hh.2))]
  · intro ticks n
    obtain ⟨-, halt, -⟩ := runTicks_alt ticks [] n List.nodup_nil
    have halt' : altFrom False (flagsFor n (runTicks ticks []).2) :=
      (altFrom_congr (by simp) _).mp halt
    refine ⟨halt', altFrom_chain halt', ?_⟩
    intro b hb
    cases hf : flagsFor n (runTicks ticks []).2 with
    | nil => rw [hf] at hb; cases hb
    | cons c cs =>
      rw [hf] at halt' hb
      have hc : c = true := halt'.1.mpr not_false
      have : c = b := by
        simpa using hb
      rw [← this, hc]

/-- Witness for C7: one entity with a unit sphere at the origin, scanned
against a near box then a far box — one enter, one exit, alternating. -/
theorem C7_trigger_alternation_witness :
    scanStep nearBox ([], []) originEntity = ([1], [⟨1, true⟩]) ∧
    scanStep farBox ([1], []) originEntity = ([], [⟨1, false⟩]) ∧
    altFrom False (flagsFor 1 (runTicks [([originEntity], nearBox), ([originEntity], farBox)] []).2) := by
  have hhit : nearBox.intersectsSphere ((⟨V3.zero, 1⟩ : Sphere).applyAffine originEntity.matrixWorld) := by
    rw [show originEntity.matrixWorld = Affine.idA from rfl, Sphere.applyAffine_idA]
    simp only [nearBox, Box3.intersectsSphere, Box3.clampPoint, V3.distanceToSquared,
      V3.lengthSq, V3.dot, V3.sub, V3.zero]
    norm_num [min_def, max_def]
  have hmiss : ¬ farBox.intersectsSphere ((⟨V3.zero, 1⟩ : Sphere).applyAffine originEntity.matrixWorld) := by
    rw [show originEntity.matrixWorld = Affine.idA from rfl, Sphere.applyAffine_idA]
    simp only [farBox, Box3.intersectsSphere, Box3.clampPoint, V3.distanceToSquared,
      V3.lengthSq, V3.dot, V3.sub, V3.zero]
    norm_num [min_def, max_def]
  refine ⟨?_, ?_,
    (C7_trigger_alternation.2 [([originEntity], nearBox), ([originEntity], farBox)] 1).1⟩
  · have h := (C7_trigger_alternation.1 nearBox [] [] originEntity ⟨V3.zero, 1⟩ rfl rfl).1
      ⟨hhit, by simp [originEntity]⟩
    simpa [originEntity] using h
  · have h := (C7_trigger_alternation.1 farBox [1] [] originEntity ⟨V3.zero, 1⟩ rfl rfl).2.1
      ⟨hmiss, by simp [originEntity]⟩
    simpa [originEntity] using h

/-! ### Claim C1: the capsule solver pass -/

theorem V3.addScaled_eq_add (a v : V3) (s : ℝ) :
    a.addScaledVector v s = a.add (v.multiplyScalar s) := rfl

theorem V3.abs_y_le_length (v : V3) : |v.y| ≤ v.length := by
  rw [show |v.y| = Real.sqrt (v.y ^ 2) from (Real.sqrt_sq_eq_abs v.y).symm]
  apply Real.sqrt_le_sqrt
  simp only [V3.lengthSq, V3.dot]
  nlinarith [sq_nonneg v.x, sq_nonneg v.z]

theorem segPts_convex (L : Line3) {p q : V3} (hp : p ∈ segPts L) (hq : q ∈ segPts L)
    {t : ℝ} (h0 : 0 ≤ t) (h1 : t ≤ 1) : p.add ((q.sub p).multiplyScalar t) ∈ segPts L := by
  obtain ⟨a, ha0, ha1, rfl⟩ := hp
  obtain ⟨b, hb0, hb1, rfl⟩ := hq
  refine ⟨a + t * (b - a), ?_, ?_, ?_⟩
  · nlinarith
  · nlinarith
  · simp only [V3.add, V3.sub, V3.multiplyScalar, V3.mk.injEq]
    refine ⟨by ring, by ring, by ring⟩

theorem triPts_convex (T : Triangle) {p q : V3} (hp : p ∈ triPts T) (hq : q ∈ triPts T)
    {t : ℝ} (h0 : 0 ≤ t) (h1 : t ≤ 1) : p.add ((q.sub p).multiplyScalar t) ∈ triPts T := by
  obtain ⟨a1, b1, c1, ha1, hb1, hc1, hs1, rfl⟩ := hp
  obtain ⟨a2, b2, c2, ha2, hb2, hc2, hs2, rfl⟩ := hq
  refine ⟨a1 + t * (a2 - a1), b1 + t * (b2 - b1), c1 + t * (c2 - c1), ?_, ?_, ?_, by ring_nf; nlinarith [hs1, hs2], ?_⟩
  · nlinarith
  · nlinarith
  · nlinarith
  · simp only [V3.add, V3.sub, V3.multiplyScalar, V3.mk.injEq]
    refine ⟨by ring, by ring, by ring⟩

/-- The supporting-hyperplane property at a closest point of a convex set:
if `pp` minimises the squared distance to `tp` over `S`, every `x ∈ S`
satisfies `0 ≤ ⟨x − pp, pp − tp⟩`. -/
theorem support_of_min (S : Set V3)
    (hconv : ∀ p ∈ S, ∀ q ∈ S, ∀ t : ℝ, 0 ≤ t → t ≤ 1 → p.add ((q.sub p).multiplyScalar t) ∈ S)
    (pp tp : V3) (hpp : pp ∈ S)
    (hmin : ∀ x ∈ S, (pp.sub tp).dot (pp.sub tp) ≤ (x.sub tp).dot (x.sub tp)) :
    ∀ x ∈ S, 0 ≤ (x.sub pp).dot (pp.sub tp) := by
  intro x hx
  by_contra hB
  push_neg at hB
  have key : ∀ t : ℝ, 0 ≤ t → t ≤ 1 →
      0 ≤ 2 * t * ((x.sub pp).dot (pp.sub tp)) + t ^ 2 * ((x.sub pp).dot (x.sub pp)) := by
    intro t h0 h1
    have hxt := hconv pp hpp x hx t h0 h1
    have hm := hmin _ hxt
    have hexp : ((pp.add ((x.sub pp).multiplyScalar t)).sub tp).dot
          ((pp.add ((x.sub pp).multiplyScalar t)).sub tp)
        = (pp.sub tp).dot (pp.sub tp) + 2 * t * ((x.sub pp).dot (pp.sub tp))
          + t ^ 2 * ((x.sub pp).dot (x.sub pp)) := by
      simp only [V3.add, V3.sub, V3.multiplyScalar, V3.dot]
      ring
    rw [hexp] at hm
    linarith
  have hCpos : 0 < (x.sub pp).dot (x.sub pp) := by
    rcases lt_or_eq_of_le (V3.dot_self_nonneg (x.sub pp)) with h | h
    · exact h
    · exfalso
      have hw0 : x.sub pp = ⟨0, 0, 0⟩ := V3.eq_zero_of_dot_self h.symm
      rw [hw0] at hB
      simp [V3.dot] at hB
  by_cases hcase : -((x.sub pp).dot (pp.sub tp)) / ((x.sub pp).dot (x.sub pp)) ≤ 1
  · have ht0 : 0 ≤ -((x.sub pp).dot (pp.sub tp)) / ((x.sub pp).dot (x.sub pp)) :=
      div_nonneg (le_of_lt (neg_pos.mpr hB)) (le_of_lt hCpos)
    have hk := key _ ht0 hcase
    have heq : 2 * (-((x.sub pp).dot (pp.sub tp)) / ((x.sub pp).dot (x.sub pp)))
          * ((x.sub pp).dot (pp.sub tp))
        + (-((x.sub pp).dot (pp.sub tp)) / ((x.sub pp).dot (x.sub pp))) ^ 2
          * ((x.sub pp).dot (x.sub pp))
        = -(((x.sub pp).dot (pp.sub tp)) ^ 2 / ((x.sub pp).dot (x.sub pp))) := by
      field_simp
      ring
    rw [heq] at hk
    have hBpos : 0 < ((x.sub pp).dot (pp.sub tp)) ^ 2 := by nlinarith
    have hd : 0 < ((x.sub pp).dot (pp.sub tp)) ^ 2 / ((x.sub pp).dot (x.sub pp)) :=
      div_pos hBpos hCpos
    linarith
  · push_neg at hcase
    have hCB : (x.sub pp).dot (x.sub pp) < -((x.sub pp).dot (pp.sub tp)) :=
      (one_lt_div hCpos).mp hcase
    have hk := key 1 zero_le_one le_rfl
    nlinarith

theorem segPts_translate (L : Line3) (w : V3) {x : V3} (hx : x ∈ segPts L) :
    x.add w ∈ segPts (⟨L.start.add w, L.endp.add w⟩ : Line3) := by
  obtain ⟨t, h0, h1, rfl⟩ := hx
  refine ⟨t, h0, h1, ?_⟩
  simp only [V3.add, V3.sub, V3.multiplyScalar, V3.mk.injEq]
  refine ⟨by ring, by ring, by ring⟩

theorem segPts_translate_rev (L : Line3) (w : V3) (x' : V3)
    (hx : x' ∈ segPts (⟨L.start.add w, L.endp.add w⟩ : Line3)) :
    ∃ x ∈ segPts L, x' = x.add w := by
  obtain ⟨t, h0, h1, rfl⟩ := hx
  refine ⟨L.start.add ((L.endp.sub L.start).multiplyScalar t), ⟨t, h0, h1, rfl⟩, ?_⟩
  simp only [V3.add, V3.sub, V3.multiplyScalar, V3.mk.injEq]
  refine ⟨by ring, by ring, by ring⟩

theorem V3.lengthSq_sub_comm (a b : V3) : (a.sub b).lengthSq = (b.sub a).lengthSq := by
  simp only [V3.lengthSq, V3.dot, V3.sub]
  ring

theorem V3.length_sub_comm (a b : V3) : (a.sub b).length = (b.sub a).length := by
  simp only [V3.length, V3.lengthSq_sub_comm]

theorem V3.dot_four_decomp (a b c d w N : V3) :
    ((a.add w).sub d).dot N
      = (a.sub b).dot N + (b.sub c).dot N + (c.sub d).dot N + w.dot N := by
  simp only [V3.dot, V3.sub, V3.add]
  ring

/-- Claim C1 amended: for a capsule segment against one triangle whose
closest pair is at a strictly positive distance below the radius, the
solver pass translates both endpoints by exactly depth = radius − distance
along the normalized (segment-point − triangle-point) direction, the
corrected segment keeps every point at distance at least the radius from
the triangle and attains exactly the radius; and when no visited triangle
is within the radius the accumulated correction is zero. -/
theorem C1_solver_pass (radius : ℝ) (T : Triangle) (L : Line3) (res : ClosestRes)
    (h1 : res.triPoint ∈ triPts T) (h2 : res.playerPoint ∈ segPts L)
    (h3 : res.distance = (res.playerPoint.sub res.triPoint).length)
    (h4 : ∀ x ∈ segPts L, ∀ y ∈ triPts T, res.distance ≤ (x.sub y).length)
    (h5 : 0 < res.distance) (h6 : res.distance < radius) :
    (solveTriangle radius res L).start
        = L.start.add
            (((res.playerPoint.sub res.triPoint).normalize).multiplyScalar (radius - res.distance)) ∧
    (solveTriangle radius res L).endp
        = L.endp.add
            (((res.playerPoint.sub res.triPoint).normalize).multiplyScalar (radius - res.distance)) ∧
    (((res.playerPoint.sub res.triPoint).normalize).multiplyScalar (radius - res.distance)).length
        = radius - res.distance ∧
    (∀ x ∈ segPts (solveTriangle radius res L), ∀ y ∈ triPts T, radius ≤ (x.sub y).length) ∧
    (∃ x ∈ segPts (solveTriangle radius res L), ∃ y ∈ triPts T, (x.sub y).length = radius) ∧
    (∀ (tris : List Triangle) (cl : Triangle → Line3 → ClosestRes),
      (∀ t ∈ tris, radius ≤ (cl t L).distance) → shapecast cl radius tris L = L) := by
  have hul : (res.playerPoint.sub res.triPoint).length = res.distance := h3.symm
  have hune : (res.playerPoint.sub res.triPoint).length ≠ 0 := by
    rw [hul]
    exact ne_of_gt h5
  have hnormu : (res.playerPoint.sub res.triPoint).normalize
      = (res.playerPoint.sub res.triPoint).multiplyScalar (1 / res.distance) := by
    rw [V3.normalize_of_ne hune, hul]
  have hunit : ((res.playerPoint.sub res.triPoint).normalize).length = 1 :=
    V3.length_normalize hune
  have hudot : (res.playerPoint.sub res.triPoint).dot (res.playerPoint.sub res.triPoint)
      = res.distance ^ 2 := by
    have h := V3.sq_length (res.playerPoint.sub res.triPoint)
    rw [hul] at h
    exact h.symm
  have hsolve : solveTriangle radius res L
      = (⟨L.start.add (((res.playerPoint.sub res.triPoint).normalize).multiplyScalar
            (radius - res.distance)),
          L.endp.add (((res.playerPoint.sub res.triPoint).normalize).multiplyScalar
            (radius - res.distance))⟩ : Line3) := by
    simp only [solveTriangle]
    rw [if_pos h6]
    rfl
  have hminS : ∀ x ∈ segPts L,
      (res.playerPoint.sub res.triPoint).dot (res.playerPoint.sub res.triPoint)
        ≤ (x.sub res.triPoint).dot (x.sub res.triPoint) := by
    intro x hx
    have hd := h4 x hx res.triPoint h1
    rw [hudot]
    have hsq := V3.sq_length (x.sub res.triPoint)
    nlinarith [V3.length_nonneg (x.sub res.triPoint)]
  have hsuppS := support_of_min (segPts L)
    (fun p hp q hq t h0 h1 => segPts_convex L hp hq h0 h1)
    res.playerPoint res.triPoint h2 hminS
  have hminT : ∀ y ∈ triPts T,
      (res.triPoint.sub res.playerPoint).dot (res.triPoint.sub res.playerPoint)
        ≤ (y.sub res.playerPoint).dot (y.sub res.playerPoint) := by
    intro y hy
    have hd := h4 res.playerPoint h2 y hy
    have hd2 : res.distance ≤ (y.sub res.playerPoint).length := by
      rw [← V3.length_sub_comm]
      exact hd
    have hswap : (res.triPoint.sub res.playerPoint).dot (res.triPoint.sub res.playerPoint)
        = (res.playerPoint.sub res.triPoint).dot (res.playerPoint.sub res.triPoint) := by
      simp only [V3.dot, V3.sub]
      ring
    rw [hswap, hudot]
    have hsq := V3.sq_length (y.sub res.playerPoint)
    nlinarith [V3.length_nonneg (y.sub res.playerPoint)]
  have hsuppT := support_of_min (triPts T)
    (fun p hp q hq t h0 h1 => triPts_convex T hp hq h0 h1)
    res.triPoint res.playerPoint h1 hminT
  refine ⟨by rw [hsolve], by rw [hsolve], ?_, ?_, ?_, ?_⟩
  · rw [V3.length_mulScalar, hunit, mul_one, abs_of_pos (by linarith)]
  · intro x' hx' y hy
    rw [hsolve] at hx'
    obtain ⟨x, hx, rfl⟩ := segPts_translate_rev L _ x' hx'
    have hd1 : 0 ≤ (x.sub res.playerPoint).dot ((res.playerPoint.sub res.triPoint).normalize) := by
      rw [hnormu, V3.dot_mulScalar_right]
      exact mul_nonneg (by positivity) (hsuppS x hx)
    have hd2 : (res.playerPoint.sub res.triPoint).dot
        ((res.playerPoint.sub res.triPoint).normalize) = res.distance := by
      rw [hnormu, V3.dot_mulScalar_right, hudot]
      field_simp
      ring
    have hd3 : 0 ≤ (res.triPoint.sub y).dot ((res.playerPoint.sub res.triPoint).normalize) := by
      rw [hnormu, V3.dot_mulScalar_right]
      apply mul_nonneg (by positivity)
      have h := hsuppT y hy
      have heq : (res.triPoint.sub y).dot (res.playerPoint.sub res.triPoint)
          = (y.sub res.triPoint).dot (res.triPoint.sub res.playerPoint) := by
        simp only [V3.dot, V3.sub]
        ring
      rw [heq]
      exact h
    have hd4 : ((((res.playerPoint.sub res.triPoint).normalize).multiplyScalar
          (radius - res.distance)).dot ((res.playerPoint.sub res.triPoint).normalize))
        = radius - res.distance := by
      rw [V3.dot_mulScalar_left, V3.dot_normalize_self hune, mul_one]
    have hdecomp := V3.dot_four_decomp x res.playerPoint res.triPoint y
      (((res.playerPoint.sub res.triPoint).normalize).multiplyScalar (radius - res.distance))
      ((res.playerPoint.sub res.triPoint).normalize)
    have hcs := V3.cauchy
      ((x.add (((res.playerPoint.sub res.triPoint).normalize).multiplyScalar
        (radius - res.distance))).sub y)
      ((res.playerPoint.sub res.triPoint).normalize)
    rw [hunit, mul_one] at hcs
    linarith
  · refine ⟨res.playerPoint.add (((res.playerPoint.sub res.triPoint).normalize).multiplyScalar
      (radius - res.distance)), ?_, res.triPoint, h1, ?_⟩
    · rw [hsolve]
      exact segPts_translate L _ h2
    · have heq : (res.playerPoint.add (((res.playerPoint.sub res.triPoint).normalize).multiplyScalar
          (radius - res.distance))).sub res.triPoint
        = (res.playerPoint.sub res.triPoint).multiplyScalar
            (1 + 1 / res.distance * (radius - res.distance)) := by
        rw [hnormu, V3.mulScalar_mulScalar]
        simp only [V3.add, V3.sub, V3.multiplyScalar, V3.mk.injEq]
        refine ⟨by ring, by ring, by ring⟩
      rw [heq, V3.length_mulScalar, hul]
      have hpos : 0 < 1 + 1 / res.distance * (radius - res.distance) := by
        have hq := mul_pos (one_div_pos.mpr h5) (by linarith : 0 < radius - res.distance)
        linarith
      rw [abs_of_pos hpos]
      field_simp
  · intro tris cl
    induction tris with
    | nil => intro _; rfl
    | cons t ts ih =>
      intro hcl
      simp only [shapecast, List.foldl_cons]
      rw [show solveTriangle radius (cl t L) L = L by
        simp only [solveTriangle]
        rw [if_neg (not_lt.mpr (hcl t (List.mem_cons_self t ts)))]]
      exact ih fun t' ht' => hcl t' (List.mem_cons_of_mem t ht')

theorem V3.normalize_zero : (⟨0, 0, 0⟩ : V3).normalize = ⟨0, 0, 0⟩ := by
  simp [V3.normalize, V3.divideScalar, V3.multiplyScalar, V3.length_zero]

theorem origin_mem_triWide : V3.zero ∈ triPts triWide := by
  refine ⟨1/3, 1/3, 1/3, by norm_num, by norm_num, by norm_num, by norm_num, ?_⟩
  simp only [triWide, V3.multiplyScalar, V3.add, V3.zero, V3.mk.injEq]
  norm_num

theorem zero_mem_segTouch : V3.zero ∈ segPts segTouch := by
  refine ⟨0, le_rfl, zero_le_one, ?_⟩
  simp only [segTouch, V3.add, V3.sub, V3.multiplyScalar, V3.zero, V3.mk.injEq]
  norm_num

theorem solveTriangle_touch : solveTriangle 1 resTouch segTouch = segTouch := by
  simp only [solveTriangle, resTouch]
  rw [if_pos (by norm_num)]
  rw [show (V3.zero.sub V3.zero) = (⟨0, 0, 0⟩ : V3) by simp [V3.sub, V3.zero]]
  rw [V3.normalize_zero]
  simp [segTouch, V3.addScaledVector, Line3.mk.injEq, V3.mk.injEq, V3.zero]

/-- Counterexample to claim C1 as stated: a capsule whose segment touches
the triangle (closest-pair distance 0, which is less than the radius 1 and
so within the claim's premise) is not pushed at all — `normalize` of the
zero direction is the zero vector — so the corrected segment still meets
the triangle at distance 0, not at the capsule radius, and the
displacement is 0, not depth = 1. -/
theorem C1_counterexample :
    resTouch.triPoint ∈ triPts triWide ∧
    resTouch.playerPoint ∈ segPts segTouch ∧
    resTouch.distance = (resTouch.playerPoint.sub resTouch.triPoint).length ∧
    (∀ x ∈ segPts segTouch, ∀ y ∈ triPts triWide, resTouch.distance ≤ (x.sub y).length) ∧
    resTouch.distance < 1 ∧
    solveTriangle 1 resTouch segTouch = segTouch ∧
    V3.zero ∈ segPts (solveTriangle 1 resTouch segTouch) ∧
    (V3.zero.sub V3.zero).length = 0 ∧
    (0 : ℝ) ≠ 1 := by
  have hlen0 : (V3.zero.sub V3.zero).length = 0 := by
    rw [show V3.zero.sub V3.zero = (⟨0, 0, 0⟩ : V3) by simp [V3.sub, V3.zero]]
    exact V3.length_zero
  refine ⟨origin_mem_triWide, zero_mem_segTouch, ?_, ?_, by norm_num [resTouch], solveTriangle_touch, ?_, hlen0, by norm_num⟩
  · exact hlen0.symm
  · intro x _ y _
    exact le_trans (le_of_eq rfl) (V3.length_nonneg (x.sub y))
  · rw [solveTriangle_touch]
    exact zero_mem_segTouch

theorem zeroHalf_mem_segAbove : (⟨0, 0.5, 0⟩ : V3) ∈ segPts segAbove := by
  refine ⟨1, zero_le_one, le_rfl, ?_⟩
  simp only [segAbove, V3.add, V3.sub, V3.multiplyScalar, V3.mk.injEq]
  norm_num

theorem segAbove_triWide_min :
    ∀ x ∈ segPts segAbove, ∀ y ∈ triPts triWide, (0.5 : ℝ) ≤ (x.sub y).length := by
  intro x hx y hy
  obtain ⟨t, ht0, ht1, rfl⟩ := hx
  obtain ⟨a, b, c, ha, hb, hc, habc, rfl⟩ := hy
  have habs := V3.abs_y_le_length
    ((segAbove.start.add ((segAbove.endp.sub segAbove.start).multiplyScalar t)).sub
      (((triWide.a.multiplyScalar a).add (triWide.b.multiplyScalar b)).add
        (triWide.c.multiplyScalar c)))
  have hcomp : ((segAbove.start.add ((segAbove.endp.sub segAbove.start).multiplyScalar t)).sub
      (((triWide.a.multiplyScalar a).add (triWide.b.multiplyScalar b)).add
        (triWide.c.multiplyScalar c))).y = 1 - 0.5 * t := by
    simp only [segAbove, triWide, V3.add, V3.sub, V3.multiplyScalar]
    norm_num
    ring
  rw [hcomp] at habs
  have hlow : (0.5 : ℝ) ≤ |1 - 0.5 * t| := by
    rw [abs_of_nonneg (by linarith)]
    linarith
  linarith

/-- Witness for C1 amended: radius 1 capsule half a unit above the wide
floor triangle, closest pair ((0,0,0),(0,0.5,0)) at distance 0.5. -/
theorem C1_solver_pass_witness :
    (solveTriangle 1 resAbove segAbove).start
        = segAbove.start.add
            (((resAbove.playerPoint.sub resAbove.triPoint).normalize).multiplyScalar
              (1 - resAbove.distance)) ∧
    (solveTriangle 1 resAbove segAbove).endp
        = segAbove.endp.add
            (((resAbove.playerPoint.sub resAbove.triPoint).normalize).multiplyScalar
              (1 - resAbove.distance)) ∧
    (((resAbove.playerPoint.sub resAbove.triPoint).normalize).multiplyScalar
        (1 - resAbove.distance)).length = 1 - resAbove.distance ∧
    (∀ x ∈ segPts (solveTriangle 1 resAbove segAbove), ∀ y ∈ triPts triWide,
      1 ≤ (x.sub y).length) ∧
    (∃ x ∈ segPts (solveTriangle 1 resAbove segAbove), ∃ y ∈ triPts triWide,
      (x.sub y).length = 1) ∧
    (∀ (tris : List Triangle) (cl : Triangle → Line3 → ClosestRes),
      (∀ t ∈ tris, 1 ≤ (cl t segAbove).distance) → shapecast cl 1 tris segAbove = segAbove) := by
  have h3 : resAbove.distance = (resAbove.playerPoint.sub resAbove.triPoint).length := by
    rw [show resAbove.playerPoint.sub resAbove.triPoint = (⟨0, 0.5, 0⟩ : V3) by
      simp [resAbove, V3.sub, V3.zero]]
    rw [V3.length_y, abs_of_nonneg (by norm_num : (0 : ℝ) ≤ 0.5)]
    norm_num [resAbove]
  exact C1_solver_pass 1 triWide segAbove resAbove origin_mem_triWide zeroHalf_mem_segAbove
    h3 segAbove_triWide_min (by norm_num [resAbove]) (by norm_num [resAbove])
